import Mathlib

/-!
OONF socket scheduler (`src-plugins/subsystems/oonf_socket.c`)

A shallow embedding of the socket scheduler of OONF: the socket registry
(`_socket_head`), the event multiplexer handle (`_socket_events`), the shutdown
deadline (`_scheduler_time_limit`) and the scheduling loop `_handle_scheduling`.

Socket entries (`struct oonf_socket_entry`) are identified by a natural number
(their address).  The `struct os_fd` handed to the multiplexer is the one
embedded in the entry (`&entry->fd`, recovered with `container_of`), so a
descriptor is identified by the entry that owns it.  The registry is the
intrusive circular doubly linked list made of the head `_socket_head` and the
node `_node` embedded in each entry; it is modelled at the level of the `next`
and `prev` pointers.

Machine integers: `uint64_t` values are natural numbers below `2 ^ 64`, with an
explicit `% 2 ^ 64` where the C arithmetic can wrap; `int` values are integers.

The logging statements `OONF_DEBUG` and `OONF_INFO` are compiled in only under
`OONF_LOG_DEBUG_INFO` / `OONF_LOG_INFO` and change no state; they are left out.
`OONF_WARN` is always compiled in and is modelled with its mask test.
-/

namespace OONF

/-! ## Constants -/

/-- The value `~0ull`: the no-deadline sentinel of `_scheduler_time_limit`. -/
def UINT64_MAX : Nat := 2 ^ 64 - 1

/-- The errno value `EINTR` (Linux `errno.h`). -/
def EINTR : Int := 4

/-- The severity bit `LOG_SEVERITY_WARN = 1<<2` of `enum log_severity`. -/
def LOG_SEVERITY_WARN : Nat := 4

/-- Constants of headers that are not part of the modelled sources:
`OONF_TIMER_SLICE` (slice budget of `subsystems/oonf_timer.h`) and the logging
source `LOG_SOCKET`, which is `_oonf_socket_subsystem.logging`. -/
structure Config where
  OONF_TIMER_SLICE : Nat
  LOG_SOCKET : Nat
deriving DecidableEq, Repr

/-! ## State -/

/-- The event multiplexer handle `struct os_fd_select`.
Modelled from the spec: `subsystems/os_fd.h` is missing; the multiplexer keeps
the watch set of registered descriptors, the read and write interest of the
descriptors and the configured wait deadline. -/
structure os_fd_select where
  sockets : List Nat
  wanted_read : List Nat
  wanted_write : List Nat
  deadline : Nat
deriving DecidableEq, Repr

/-- Modelled from the spec: `common/list.h` is missing. A `list_ptr` is the
address of a `struct list_entity`: `NULL`, the list head `&_socket_head`, or the
node `&entry->_node` embedded in the socket entry `entry`. -/
inductive list_ptr where
  | null
  | head
  | node (entry : Nat)
deriving DecidableEq, Repr

/-- Modelled from the spec: `common/list.h` is missing; the registry is the
ordered collection the source builds from the static
`struct list_entity _socket_head` and the `_node` member embedded in every socket
entry, a circular doubly linked list in which an entry has one node and so
cannot be linked twice. A `list_entity` is the intrusive link
`struct list_entity` with its two pointers `next` and `prev`. -/
structure list_entity where
  next : list_ptr
  prev : list_ptr
deriving DecidableEq, Repr

/-- The memory that holds the list entities of the registry: the content of the
head `_socket_head` and of the node `_node` of every socket entry. The content
at `NULL` is never used. -/
abbrev list_memory : Type := list_ptr → list_entity

/-- The global state the scheduler works on: its three static variables (for
`_socket_head` the list head together with the nodes of the entries), the cached
time of the clock subsystem (`oonf_clock_getNow`), the descriptors closed so far
with `os_fd_close`, and the global logging mask. -/
structure World where
  _scheduler_time_limit : Nat
  _socket_head : list_memory
  _socket_events : os_fd_select
  now : Nat
  closed : List Nat
  log_global_mask : List Nat

/-! ## Helpers of missing headers -/

/-- A store `*p = v` of a whole list entity. -/
def list_write (m : list_memory) (p : list_ptr) (v : list_entity) : list_memory :=
  fun x => if x = p then v else m x

/-- The store `p->next = v`. A store through `NULL` crashes the program; it can
only happen while the head was never initialised, and the model drops it. -/
def list_set_next (m : list_memory) (p v : list_ptr) : list_memory :=
  if p = list_ptr.null then m else list_write m p ⟨v, (m p).prev⟩

/-- The store `p->prev = v`; as for `list_set_next` a store through `NULL` is
dropped. -/
def list_set_prev (m : list_memory) (p v : list_ptr) : list_memory :=
  if p = list_ptr.null then m else list_write m p ⟨(m p).next, v⟩

/-- Modelled from the spec: `list_init_head(&_socket_head)` of the missing
`common/list.h` makes the registry empty: the head points to itself in both
directions. -/
def list_init_head (m : list_memory) : list_memory :=
  list_write m list_ptr.head ⟨list_ptr.head, list_ptr.head⟩

/-- Modelled from the spec: `list_is_empty(&_socket_head)` of the missing
`common/list.h`: the head points to itself in both directions. -/
def list_is_empty (m : list_memory) : Bool :=
  (m list_ptr.head).next == list_ptr.head && (m list_ptr.head).prev == list_ptr.head

/-- Modelled from the spec: the helper `__list_add(prev, next, new)` of the
missing `common/list.h` links `new` between `prev` and `next`:
`new->next = next; new->prev = prev; next->prev = new; prev->next = new`. -/
def __list_add (m : list_memory) (prev next new : list_ptr) : list_memory :=
  list_set_next (list_set_prev (list_set_prev (list_set_next m new next) new prev) next new)
    prev new

/-- Modelled from the spec: `list_add_before(&_socket_head, &entry->_node)` of the
missing `common/list.h` links the node of the entry before the head, that is at
the tail of the ordered registry: `__list_add(head->prev, head, node)`. The
pointers of the node are overwritten whatever they were: on a node that is
already linked this does not unlink it first and leaves the list corrupted. -/
def list_add_before (m : list_memory) (node : Nat) : list_memory :=
  __list_add m (m list_ptr.head).prev list_ptr.head (list_ptr.node node)

/-- Modelled from the spec: `list_is_node_added(&entry->_node)` of the missing
`common/list.h` tells whether the entry is linked; it looks at the node alone:
`node->next != NULL && node->prev != NULL`. -/
def list_is_node_added (m : list_memory) (node : Nat) : Bool :=
  (m (list_ptr.node node)).next != list_ptr.null
    && (m (list_ptr.node node)).prev != list_ptr.null

/-- Modelled from the spec: the helper `__list_remove(prev, next)` of the missing
`common/list.h` links `prev` and `next` to each other:
`prev->next = next; next->prev = prev`. -/
def __list_remove (m : list_memory) (prev next : list_ptr) : list_memory :=
  list_set_prev (list_set_next m prev next) next prev

/-- Modelled from the spec: `list_remove(&entry->_node)` of the missing
`common/list.h` unlinks the entry, `__list_remove(node->prev, node->next)`, and
clears the node, `node->prev = node->next = NULL`; afterwards the entry is not
linked. -/
def list_remove (m : list_memory) (node : Nat) : list_memory :=
  list_write
    (__list_remove m (m (list_ptr.node node)).prev (m (list_ptr.node node)).next)
    (list_ptr.node node) ⟨list_ptr.null, list_ptr.null⟩

/-- The entries met when following the `next` pointers from `p`, at most `fuel`
of them, up to the head or `NULL`. -/
def list_walk (m : list_memory) : Nat → list_ptr → List Nat
  | 0, _ => []
  | _ + 1, .null => []
  | _ + 1, .head => []
  | fuel + 1, .node e => e :: list_walk m fuel (m (list_ptr.node e)).next

/-- The entry is linked in the registry `_socket_head`: it is met when the list
is walked from the head along the `next` pointers, as `list_for_each_element`
does. -/
def list_linked (m : list_memory) (entry : Nat) : Prop :=
  ∃ fuel, entry ∈ list_walk m fuel (m list_ptr.head).next

/-- Modelled from the spec: `os_fd_event_add` of the missing `subsystems/os_fd.h`
creates the multiplexer, which tracks no descriptor yet. -/
def os_fd_event_add (sel : os_fd_select) : os_fd_select :=
  { sel with sockets := [], wanted_read := [], wanted_write := [] }

/-- Modelled from the spec: `os_fd_event_remove` of the missing `subsystems/os_fd.h`
destroys the multiplexer; no descriptor is tracked afterwards. -/
def os_fd_event_remove (sel : os_fd_select) : os_fd_select :=
  { sel with sockets := [], wanted_read := [], wanted_write := [] }

/-- Modelled from the spec: `os_fd_event_socket_add` of the missing
`subsystems/os_fd.h` hands the descriptor to the multiplexer for tracking. -/
def os_fd_event_socket_add (sel : os_fd_select) (sock : Nat) : os_fd_select :=
  { sel with sockets := sel.sockets ++ [sock] }

/-- Modelled from the spec: `os_fd_event_socket_remove` of the missing
`subsystems/os_fd.h` unregisters the descriptor from the multiplexer. -/
def os_fd_event_socket_remove (sel : os_fd_select) (sock : Nat) : os_fd_select :=
  { sel with sockets := sel.sockets.filter (fun x => x != sock) }

/-- Modelled from the spec: `os_fd_event_socket_read` of the missing
`subsystems/os_fd.h` sets the read interest of the descriptor. -/
def os_fd_event_socket_read (sel : os_fd_select) (sock : Nat) (event_read : Bool) :
    os_fd_select :=
  { sel with wanted_read :=
      if event_read then sock :: sel.wanted_read.filter (fun x => x != sock)
      else sel.wanted_read.filter (fun x => x != sock) }

/-- Modelled from the spec: `os_fd_event_socket_write` of the missing
`subsystems/os_fd.h` sets the write interest of the descriptor. -/
def os_fd_event_socket_write (sel : os_fd_select) (sock : Nat) (event_write : Bool) :
    os_fd_select :=
  { sel with wanted_write :=
      if event_write then sock :: sel.wanted_write.filter (fun x => x != sock)
      else sel.wanted_write.filter (fun x => x != sock) }

/-- Modelled from the spec: `os_fd_event_get_deadline` of the missing
`subsystems/os_fd.h` reads the configured wait deadline. -/
def os_fd_event_get_deadline (sel : os_fd_select) : Nat := sel.deadline

/-- Modelled from the spec: `os_fd_event_set_deadline` of the missing
`subsystems/os_fd.h` configures the wait deadline. -/
def os_fd_event_set_deadline (sel : os_fd_select) (deadline : Nat) : os_fd_select :=
  { sel with deadline := deadline }

/-- Modelled from the spec: `oonf_clock_get_absolute(relative)` of the missing
`subsystems/oonf_clock.h` is the cached time plus the offset, as a `uint64_t`. -/
def oonf_clock_get_absolute (now relative : Nat) : Nat := (now + relative) % 2 ^ 64

/-- The test `oonf_log_mask_test(mask, src, sev)`: `(mask[src] & sev) != 0`. -/
def oonf_log_mask_test (mask : List Nat) (src sev : Nat) : Bool :=
  Nat.land (mask.getD src 0) sev != 0

/-! ## Registry operations of `oonf_socket.c` -/

/-- The function `_init`: fails with -1 when `oonf_main_set_scheduler` returns
non-zero (its result is the first argument); otherwise empties the registry,
creates the multiplexer and sets the deadline to `~0ull`. -/
def _init (set_scheduler : Int) (w : World) : Int × World :=
  if set_scheduler ≠ 0 then (-1, w)
  else
    (0, { w with
            _socket_head := list_init_head w._socket_head,
            _socket_events := os_fd_event_add w._socket_events,
            _scheduler_time_limit := UINT64_MAX })

/-- Modelled from the spec: the loop `list_for_each_element_safe` of the missing
`common/list.h` in `_cleanup` visits the linked entries from `p` on, the next
entry being read before the body runs; the body unlinks the entry and closes its
descriptor. `rounds` bounds the number of entries visited: a list of `n` entries
needs `n` rounds, and on a corrupted list the loop of the source need not end. -/
def cleanup_loop : Nat → list_ptr → World → World
  | 0, _, w => w
  | _ + 1, .null, w => w
  | _ + 1, .head, w => w
  | rounds + 1, .node e, w =>
    cleanup_loop rounds (w._socket_head (list_ptr.node e)).next
      { w with
          _socket_head := list_remove w._socket_head e,
          closed := w.closed ++ [e] }

/-- The function `_cleanup`: unlinks and closes every linked entry, then
destroys the multiplexer; `rounds` bounds the number of rounds of its loop. -/
def _cleanup (rounds : Nat) (w : World) : World :=
  { cleanup_loop rounds (w._socket_head list_ptr.head).next w with
      _socket_events := os_fd_event_remove w._socket_events }

/-- The function `_initiate_shutdown`: arms the deadline 500 ms from now. -/
def _initiate_shutdown (w : World) : World :=
  { w with _scheduler_time_limit := oonf_clock_get_absolute w.now 500 }

/-- The function `oonf_socket_add`. -/
def oonf_socket_add (entry : Nat) (w : World) : World :=
  { w with
      _socket_head := list_add_before w._socket_head entry,
      _socket_events := os_fd_event_socket_add w._socket_events entry }

/-- The function `oonf_socket_remove`. -/
def oonf_socket_remove (entry : Nat) (w : World) : World :=
  if list_is_node_added w._socket_head entry then
    { w with
        _socket_head := list_remove w._socket_head entry,
        _socket_events := os_fd_event_socket_remove w._socket_events entry }
  else w

/-- The function `oonf_socket_set_read`. -/
def oonf_socket_set_read (entry : Nat) (event_read : Bool) (w : World) : World :=
  { w with _socket_events := os_fd_event_socket_read w._socket_events entry event_read }

/-- The function `oonf_socket_set_write`. -/
def oonf_socket_set_write (entry : Nat) (event_write : Bool) (w : World) : World :=
  { w with _socket_events := os_fd_event_socket_write w._socket_events entry event_write }

/-- A call of `oonf_socket_add` or `oonf_socket_remove`. -/
inductive RegistryCall where
  | add (entry : Nat)
  | remove (entry : Nat)
deriving DecidableEq, Repr

/-- Effect of one registry call. -/
def RegistryCall.run : RegistryCall → World → World
  | .add e, w => oonf_socket_add e w
  | .remove e, w => oonf_socket_remove e w

/-- Effect of a sequence of registry calls, first call first. -/
def run_calls : List RegistryCall → World → World
  | [], w => w
  | c :: cs, w => run_calls cs (c.run w)

/-- What code outside the scheduler (a socket callback, a timer callback) can do
to the scheduler: call its exported functions. -/
inductive Action where
  | registry (c : RegistryCall)
  | set_read (entry : Nat) (event_read : Bool)
  | set_write (entry : Nat) (event_write : Bool)
deriving DecidableEq, Repr

/-- Effect of one action. -/
def Action.run : Action → World → World
  | .registry c, w => c.run w
  | .set_read e b, w => oonf_socket_set_read e b w
  | .set_write e b, w => oonf_socket_set_write e b w

/-- Effect of a sequence of actions, first action first. -/
def run_actions : List Action → World → World
  | [], w => w
  | a :: as, w => run_actions as (a.run w)

/-! ## The scheduling loop -/

/-- What the loop does that can be observed from outside, in order.
* `clock_update ok`: a call of `oonf_clock_update`; `ok` is false when it
  returned non-zero.
* `timer_walk`: the call of `oonf_timer_walk`.
* `wait deadline next_event limit`: a call of `os_fd_event_wait`; `deadline` is
  the deadline configured in `_socket_events` at the call, `next_event` the value
  `oonf_timer_getNextEvent()` returned in this iteration and `limit` the value of
  `_scheduler_time_limit`.
* `process entry linked`: the call `sock_entry->process(sock_entry)`; `linked`
  tells whether the entry is linked (`list_is_node_added`) at the call.
* `warn_select errno delivered`: the `OONF_WARN` after a failed wait.
* `warn_slice entry elapsed delivered`: the `OONF_WARN` after a callback that
  ran for `elapsed = end_time - start_time`.
For both warnings `delivered` is the result of the mask test of `_OONF_LOG`,
which decides whether `oonf_log` is called. -/
inductive Event where
  | clock_update (ok : Bool)
  | timer_walk
  | wait (deadline next_event limit : Nat)
  | process (entry : Nat) (linked : Bool)
  | warn_select (errno : Int) (delivered : Bool)
  | warn_slice (entry elapsed : Nat) (delivered : Bool)
deriving DecidableEq, Repr

/-- Whether the event is a call of a socket callback. -/
def Event.is_process : Event → Bool
  | .process _ _ => true
  | _ => false

/-- Whether the event is a call of `os_fd_event_wait`. -/
def Event.is_wait : Event → Bool
  | .wait _ _ _ => true
  | _ => false

/-- Whether the event is an `OONF_WARN`. -/
def Event.is_warn : Event → Bool
  | .warn_select _ _ => true
  | .warn_slice _ _ _ => true
  | _ => false

/-- The entry a callback event was invoked on. -/
def Event.invoked : Event → Option Nat
  | .process e _ => some e
  | _ => none

/-- Modelled from the spec: `os_fd_event_get`, `os_fd_event_is_read` and
`os_fd_event_is_write` of the missing `subsystems/os_fd.h` enumerate the triggered
events the wait has captured, each a descriptor with its two readiness flags;
unregistering a descriptor afterwards does not alter the captured events.
A `Slot` is what the loop finds at index `i`: the descriptor
`os_fd_event_get(&_socket_events, i)` (given by its owning entry), the results
of `os_fd_event_is_read` and `os_fd_event_is_write` on it, the `process` field of
the entry (`none` is `NULL`; `some acts` is a callback that performs `acts` on
the scheduler when it is called), and the two times `os_clock_gettime64` returns
around the callback. -/
structure Slot where
  sock : Nat
  is_read : Bool
  is_write : Bool
  process : Option (List Action)
  start_time : Nat
  end_time : Nat
deriving DecidableEq, Repr

/-- One pass through the body of the `do ... while` loop: the value of
`oonf_main_shall_stop_scheduler()` at the check before the wait, the value `n`
returned by `os_fd_event_wait`, `errno` after it, and the triggered events that
`os_fd_event_get` then returns by index. -/
structure WaitTry where
  stop : Bool
  n : Int
  errno : Int
  os_fd_event_get : Nat → Slot

/-- What the environment answers during one iteration of the `while (true)`
loop: the result of the first `oonf_clock_update` (`none` is a failure, `some t`
the refreshed time), the calls timer callbacks make during `oonf_timer_walk`,
the value of `oonf_main_shall_stop_scheduler()` after the timers, the value of
`oonf_timer_getNextEvent()`, the passes of the wait loop, and the result of the
second `oonf_clock_update`. -/
structure Iter where
  clock1 : Option Nat
  timers : List Action
  stop : Bool
  next_event : Nat
  waits : List WaitTry
  clock2 : Option Nat

/-- The macro `OONF_WARN(LOG_SOCKET, ...)`: the mask test of `_OONF_LOG`. -/
def OONF_WARN (cfg : Config) (w : World) : Bool :=
  oonf_log_mask_test w.log_global_mask cfg.LOG_SOCKET LOG_SEVERITY_WARN

/-- The function `_shall_end_scheduler`; the second argument is the value of
`oonf_main_shall_stop_scheduler()`. -/
def _shall_end_scheduler (w : World) (oonf_main_shall_stop_scheduler : Bool) : Bool :=
  w._scheduler_time_limit == UINT64_MAX && oonf_main_shall_stop_scheduler

/-- The `for (i=0; i<n; i++)` loop of `_handle_scheduling` over the triggered
events `os_fd_event_get(&_socket_events, i)`, `i < n`, given as a list. -/
def dispatch (cfg : Config) : List Slot → World → List Event × World
  | [], w => ([], w)
  | s :: ss, w =>
    if s.is_read || s.is_write then
      match s.process with
      | none => dispatch cfg ss w
      | some acts =>
        let w1 := run_actions acts w
        let elapsed := (s.end_time + 2 ^ 64 - s.start_time) % 2 ^ 64
        let r := dispatch cfg ss w1
        (Event.process s.sock (list_is_node_added w._socket_head s.sock)
          :: ((if elapsed > cfg.OONF_TIMER_SLICE
                then [Event.warn_slice s.sock elapsed (OONF_WARN cfg w1)] else [])
              ++ r.1),
         r.2)
    else dispatch cfg ss w

/-- How the `do ... while (n == -1 && errno == EINTR)` loop is left. -/
inductive WaitOutcome where
  | ended
  | result (t : WaitTry)
  | exhausted

/-- The `do ... while (n == -1 && errno == EINTR)` loop of `_handle_scheduling`:
the wait events it produces and how it is left (`ended`: `_shall_end_scheduler()`
was true; `result t`: the wait returned with a result that is not retried;
`exhausted`: the scripted passes ran out). -/
def wait_loop (w : World) (next_event : Nat) : List WaitTry → List Event × WaitOutcome
  | [] => ([], .exhausted)
  | t :: ts =>
    if _shall_end_scheduler w t.stop then ([], .ended)
    else
      let ev := Event.wait (os_fd_event_get_deadline w._socket_events) next_event
        w._scheduler_time_limit
      if t.n = -1 ∧ t.errno = EINTR then
        let r := wait_loop w next_event ts
        (ev :: r.1, r.2)
      else ([ev], .result t)

/-- Lines 216-223 of `_handle_scheduling`: `next_event` is the timer's next
event capped by `_scheduler_time_limit`, and the deadline of `_socket_events` is
updated when it differs. The argument is the value of
`oonf_timer_getNextEvent()`. -/
def set_next_deadline (timer_next_event : Nat) (w : World) : World :=
  let next_event :=
    if timer_next_event > w._scheduler_time_limit then w._scheduler_time_limit
    else timer_next_event
  if os_fd_event_get_deadline w._socket_events != next_event then
    { w with _socket_events := os_fd_event_set_deadline w._socket_events next_event }
  else w

/-- How one iteration of the `while (true)` loop ends: with `return ret`, by
reaching the end of the loop body (`again`), or because the scripted passes of
the wait loop ran out (`exhausted`). -/
inductive Outcome where
  | returned (ret : Int)
  | again
  | exhausted
deriving DecidableEq, Repr

/-- Lines 233-272 of `_handle_scheduling`: what follows the wait loop when it
was left with the wait result `wt`. -/
def after_wait (cfg : Config) (clock2 : Option Nat) (wt : WaitTry) (w : World) :
    Outcome × List Event × World :=
  if wt.n = 0 then (.returned 0, [], w)
  else if wt.n < 0 then
    (.returned (-1), [.warn_select wt.errno (OONF_WARN cfg w)], w)
  else
    match clock2 with
    | none => (.returned (-1), [.clock_update false], w)
    | some t2 =>
      let d := dispatch cfg ((List.range wt.n.toNat).map wt.os_fd_event_get)
        { w with now := t2 }
      (.again, .clock_update true :: d.1, d.2)

/-- Lines 210-272 of `_handle_scheduling`: the timers, the stop check, the
deadline, the wait loop and what follows it. -/
def after_clock (cfg : Config) (it : Iter) (w : World) : Outcome × List Event × World :=
  let w2 := run_actions it.timers w
  if _shall_end_scheduler w2 it.stop then (.returned 0, [.timer_walk], w2)
  else
    let w3 := set_next_deadline it.next_event w2
    match wait_loop w3 it.next_event it.waits with
    | (tr, .exhausted) => (.exhausted, .timer_walk :: tr, w3)
    | (tr, .ended) => (.returned 0, .timer_walk :: tr, w3)
    | (tr, .result wt) =>
      let r := after_wait cfg it.clock2 wt w3
      (r.1, .timer_walk :: (tr ++ r.2.1), r.2.2)

/-- One iteration of the `while (true)` loop of `_handle_scheduling` (lines
201-272). -/
def iteration (cfg : Config) (it : Iter) (w : World) : Outcome × List Event × World :=
  match it.clock1 with
  | none => (.returned (-1), [.clock_update false], w)
  | some t =>
    let w1 := { w with now := t }
    if w1.now ≥ w1._scheduler_time_limit then (.returned (-1), [.clock_update true], w1)
    else
      let r := after_clock cfg it w1
      (r.1, .clock_update true :: r.2.1, r.2.2)

/-- Result of a run of `_handle_scheduling`: the returned value (`none` when the
scripted answers ran out before the loop returned), the observed events and the
final state. -/
structure Run where
  ret : Option Int
  trace : List Event
  world : World

/-- The function `_handle_scheduling`, run against the scripted answers of the
environment, one `Iter` per iteration of the `while (true)` loop. -/
def _handle_scheduling (cfg : Config) : List Iter → World → Run
  | [], w => ⟨none, [], w⟩
  | it :: rest, w =>
    match iteration cfg it w with
    | (.returned ret, tr, w1) => ⟨some ret, tr, w1⟩
    | (.exhausted, tr, w1) => ⟨none, tr, w1⟩
    | (.again, tr, w1) =>
      let r := _handle_scheduling cfg rest w1
      ⟨r.ret, tr ++ r.trace, r.world⟩

/-! ## Operations on the scheduler seen from outside -/

/-- An operation on the scheduler state: an action of outside code, a refresh of
the cached clock time to `t` outside the loop, a shutdown request
(`_initiate_shutdown`), a run of `_handle_scheduling`, or `_cleanup` (with the
bound on the rounds of its loop). -/
inductive Op where
  | action (a : Action)
  | clock (t : Nat)
  | shutdown
  | schedule (cfg : Config) (script : List Iter)
  | cleanup (rounds : Nat)

/-- Whether the operation is a shutdown request. -/
def Op.is_shutdown : Op → Bool
  | .shutdown => true
  | _ => false

/-- Effect of one operation. -/
def Op.run : Op → World → World
  | .action a, w => a.run w
  | .clock t, w => { w with now := t }
  | .shutdown, w => _initiate_shutdown w
  | .schedule cfg script, w => (_handle_scheduling cfg script w).world
  | .cleanup rounds, w => _cleanup rounds w

/-- Effect of a sequence of operations, first operation first. -/
def run_ops : List Op → World → World
  | [], w => w
  | o :: os, w => run_ops os (o.run w)

/-- The state in which an iteration reaches the wait loop: the clock was
refreshed to `t`, the timers have run and the wait deadline is configured. -/
def wait_world (it : Iter) (t : Nat) (w : World) : World :=
  set_next_deadline it.next_event (run_actions it.timers { w with now := t })

/-- The triggered events a wait result reports: `os_fd_event_get(&_socket_events, i)`
for `i < n`, in the order of the index. -/
def WaitTry.batch (wt : WaitTry) : List Slot :=
  (List.range wt.n.toNat).map wt.os_fd_event_get

/-- The entries whose callback a trace invokes, in order. -/
def invoked_entries (trace : List Event) : List Nat :=
  trace.filterMap Event.invoked

/-- Whether the loop invokes the callback of a triggered event when it reaches
it: the event reports read or write readiness and the entry has a callback. -/
def Slot.dispatched (s : Slot) : Bool :=
  (s.is_read || s.is_write) && s.process.isSome

/-- The registry and the watch set of the multiplexer have the same members. -/
def registry_agrees (w : World) : Prop :=
  ∀ e, list_linked w._socket_head e ↔ e ∈ w._socket_events.sockets

/-- The memory holds a well-formed piece of list: from `p` the `next` pointers
lead through the nodes of the entries `l`, in order, to `q`, and the `prev`
pointers lead back. -/
def list_chain (m : list_memory) : list_ptr → List Nat → list_ptr → Prop
  | p, [], q => (m p).next = q ∧ (m q).prev = p
  | p, e :: l, q =>
    (m p).next = list_ptr.node e ∧ (m (list_ptr.node e)).prev = p
      ∧ list_chain m (list_ptr.node e) l q

/-- The registry is the well-formed circular list of the entries `l`, each once;
exactly these entries are linked (`list_is_node_added`), and they are the
descriptors the multiplexer tracks. -/
def registry_is (w : World) (l : List Nat) : Prop :=
  l.Nodup ∧ list_chain w._socket_head list_ptr.head l list_ptr.head
    ∧ (∀ e, list_is_node_added w._socket_head e = true ↔ e ∈ l)
    ∧ (∀ e, e ∈ l ↔ e ∈ w._socket_events.sockets)

/-- Whether a sequence of registry calls respects the precondition of
`oonf_socket_add` when it is run from the state `w`: no entry is added while it
is linked (`list_is_node_added`). -/
def calls_admissible : List RegistryCall → World → Bool
  | [], _ => true
  | .add e :: cs, w =>
    !list_is_node_added w._socket_head e && calls_admissible cs (oonf_socket_add e w)
  | .remove e :: cs, w => calls_admissible cs (oonf_socket_remove e w)

/-- The memory in which no list entity is linked: every pointer is `NULL`. -/
def list_memory0 : list_memory := fun _ => ⟨list_ptr.null, list_ptr.null⟩

/-- A state to run examples from: nothing registered, no deadline, time 0,
warnings enabled for every logging source. -/
def world0 : World :=
  { _scheduler_time_limit := UINT64_MAX
    _socket_head := list_init_head list_memory0
    _socket_events := ⟨[], [], [], 0⟩
    now := 0
    closed := []
    log_global_mask := List.replicate 64 LOG_SEVERITY_WARN }

/-- Entries 1 and 2 registered, multiplexer deadline 7, no shutdown requested. -/
def world12 : World :=
  { _scheduler_time_limit := UINT64_MAX
    _socket_head := list_add_before (list_add_before (list_init_head list_memory0) 1) 2
    _socket_events := ⟨[1, 2], [1, 2], [], 7⟩
    now := 0
    closed := []
    log_global_mask := List.replicate 64 LOG_SEVERITY_WARN }

/-- The state `world12` after a shutdown request at time 1000: deadline 1500. -/
def world_grace : World := _initiate_shutdown { world12 with now := 1000 }

/-- A triggered event without readiness and without callback. -/
def slot_idle : Slot := ⟨0, false, false, none, 0, 0⟩

/-- A wait interrupted by a signal. -/
def wait_eintr : WaitTry := ⟨false, -1, EINTR, fun _ => slot_idle⟩

/-- A wait that times out. -/
def wait_timeout : WaitTry := ⟨false, 0, 0, fun _ => slot_idle⟩

/-- A wait that fails with errno 9 (`EBADF`). -/
def wait_error : WaitTry := ⟨false, -1, 9, fun _ => slot_idle⟩

/-- A wait that reports entries 1 and 2; the callback of entry 1 runs for 195 ms
and removes entry 2 from the scheduler. -/
def wait_two : WaitTry :=
  ⟨false, 2, 0, fun i =>
    if i = 0 then ⟨1, true, false, some [.registry (.remove 2)], 5, 200⟩
    else ⟨2, false, true, some [], 300, 310⟩⟩

/-- A wait that reports entry 1, which has a callback, with neither the read nor
the write flag. -/
def wait_hup : WaitTry := ⟨false, 1, 0, fun _ => ⟨1, false, false, some [], 0, 0⟩⟩

/-- A wait that reports entry 1 as readable; its callback removes entry 1. -/
def wait_self : WaitTry :=
  ⟨false, 1, 0, fun _ => ⟨1, true, false, some [.registry (.remove 1)], 0, 1⟩⟩

/-- Constants to run examples with: slice budget 100, logging source 14. -/
def config0 : Config := ⟨100, 14⟩

/-! ## Logging masks of `core/oonf_logging.h` -/

/-- The severity bit `LOG_SEVERITY_DEBUG = 1<<0` of `enum log_severity`. -/
def LOG_SEVERITY_DEBUG : Nat := 1

/-- The severity bit `LOG_SEVERITY_INFO = 1<<1` of `enum log_severity`. -/
def LOG_SEVERITY_INFO : Nat := 2

/-- The number of logging sources, `LOG_MAXIMUM_SOURCES = 64`: the length of a
logging mask `uint8_t mask[LOG_MAXIMUM_SOURCES]`. -/
def LOG_MAXIMUM_SOURCES : Nat := 64

/-- The function `oonf_log_mask_clear`:
`memset(mask, LOG_SEVERITY_WARN, LOG_MAXIMUM_SOURCES)`. -/
def oonf_log_mask_clear (_mask : List Nat) : List Nat :=
  List.replicate LOG_MAXIMUM_SOURCES LOG_SEVERITY_WARN

/-- The function `oonf_log_mask_set`: `mask[src] |= sev`, stored as a `uint8_t`. -/
def oonf_log_mask_set (mask : List Nat) (src sev : Nat) : List Nat :=
  mask.set src (Nat.lor (mask.getD src 0) sev % 256)

/-- The function `oonf_log_mask_reset`: `mask[src] &= ~sev`; `~sev` is the
complement of the 32 bit `int` value `sev`, and the result is stored as a
`uint8_t`. -/
def oonf_log_mask_reset (mask : List Nat) (src sev : Nat) : List Nat :=
  mask.set src (Nat.land (mask.getD src 0) (2 ^ 32 - 1 - sev) % 256)

/-- A logging mask of 64 byte entries. -/
def is_log_mask (mask : List Nat) : Prop :=
  mask.length = LOG_MAXIMUM_SOURCES ∧ ∀ x ∈ mask, x < 256

/-- The severities `DEBUG`, `INFO` and `WARN`. -/
def is_log_severity (sev : Nat) : Prop :=
  sev = LOG_SEVERITY_DEBUG ∨ sev = LOG_SEVERITY_INFO ∨ sev = LOG_SEVERITY_WARN

/-! ## Notions used to state properties of the loop -/

/-- The value `end_time - start_time` the loop compares with `OONF_TIMER_SLICE`:
the difference of the two `uint64_t` timestamps taken around the callback. -/
def Slot.elapsed (s : Slot) : Nat := (s.end_time + 2 ^ 64 - s.start_time) % 2 ^ 64

/-- The entry and the elapsed time of a slice warning; `none` for other events. -/
def Event.slice_warning : Event → Option (Nat × Nat)
  | .warn_slice entry elapsed _ => some (entry, elapsed)
  | _ => none

/-- Whether every scripted iteration runs to the end of the loop body, so that
the loop goes round once per element of the script and has not returned. -/
def completes (cfg : Config) : List Iter → World → Bool
  | [], _ => true
  | it :: rest, w =>
    match iteration cfg it w with
    | (.again, _, w1) => completes cfg rest w1
    | _ => false

/-- The reasons for which an iteration with the scripted answers `it` can make
`_handle_scheduling` return `r` when the shutdown deadline is `limit`: a failed
clock refresh (-1), a refreshed time at or after the deadline (-1), or, with the
refreshed time below the deadline, a true stop predicate (0), a wait that timed
out (0), a wait that failed for a reason other than `EINTR` (-1) or a failed
clock refresh after a wait that reported events (-1). -/
def stop_cause (limit : Nat) (it : Iter) (r : Int) : Prop :=
  (it.clock1 = none ∧ r = -1) ∨
  (∃ t, it.clock1 = some t ∧ limit ≤ t ∧ r = -1) ∨
  (∃ t, it.clock1 = some t ∧ t < limit ∧
    ((limit = UINT64_MAX ∧ (it.stop = true ∨ ∃ wt ∈ it.waits, wt.stop = true) ∧ r = 0) ∨
     (∃ wt ∈ it.waits, wt.n = 0 ∧ r = 0) ∨
     (∃ wt ∈ it.waits, wt.n < 0 ∧ ¬ (wt.n = -1 ∧ wt.errno = EINTR) ∧ r = -1) ∨
     (∃ wt ∈ it.waits, 0 < wt.n ∧ it.clock2 = none ∧ r = -1)))

/-- A wait that reports entry 1 as readable; its callback starts at time 1110
and ends at time 1590. -/
def wait_slow : WaitTry := ⟨false, 1, 0, fun _ => ⟨1, true, false, some [], 1110, 1590⟩⟩

end OONF

namespace OONF

/-! ## The intrusive list of the registry -/

theorem next_list_set_next (m : list_memory) (p v x : list_ptr) (hp : p ≠ list_ptr.null) :
    ((list_set_next m p v) x).next = if x = p then v else (m x).next := by
  unfold list_set_next list_write
  rw [if_neg hp]
  split <;> rfl

theorem prev_list_set_next (m : list_memory) (p v x : list_ptr) :
    ((list_set_next m p v) x).prev = (m x).prev := by
  unfold list_set_next list_write
  split
  · rfl
  · dsimp only
    split
    · next h => rw [h]
    · rfl

theorem prev_list_set_prev (m : list_memory) (p v x : list_ptr) (hp : p ≠ list_ptr.null) :
    ((list_set_prev m p v) x).prev = if x = p then v else (m x).prev := by
  unfold list_set_prev list_write
  rw [if_neg hp]
  split <;> rfl

theorem next_list_set_prev (m : list_memory) (p v x : list_ptr) :
    ((list_set_prev m p v) x).next = (m x).next := by
  unfold list_set_prev list_write
  split
  · rfl
  · dsimp only
    split
    · next h => rw [h]
    · rfl

theorem node_ne_null (e : Nat) : list_ptr.node e ≠ list_ptr.null := list_ptr.noConfusion

theorem head_ne_null : list_ptr.head ≠ list_ptr.null := list_ptr.noConfusion

theorem next_list_add_before (m : list_memory) (e : Nat) (x : list_ptr)
    (hl : (m list_ptr.head).prev ≠ list_ptr.null) :
    ((list_add_before m e) x).next =
      if x = (m list_ptr.head).prev then list_ptr.node e
      else if x = list_ptr.node e then list_ptr.head else (m x).next := by
  unfold list_add_before __list_add
  rw [next_list_set_next _ _ _ _ hl, next_list_set_prev, next_list_set_prev,
    next_list_set_next _ _ _ _ (node_ne_null e)]

theorem prev_list_add_before (m : list_memory) (e : Nat) (x : list_ptr) :
    ((list_add_before m e) x).prev =
      if x = list_ptr.head then list_ptr.node e
      else if x = list_ptr.node e then (m list_ptr.head).prev else (m x).prev := by
  unfold list_add_before __list_add
  rw [prev_list_set_next, prev_list_set_prev _ _ _ _ head_ne_null,
    prev_list_set_prev _ _ _ _ (node_ne_null e), prev_list_set_next]

theorem next_list_remove (m : list_memory) (e : Nat) (x : list_ptr)
    (hp : (m (list_ptr.node e)).prev ≠ list_ptr.null) :
    ((list_remove m e) x).next =
      if x = list_ptr.node e then list_ptr.null
      else if x = (m (list_ptr.node e)).prev then (m (list_ptr.node e)).next
      else (m x).next := by
  unfold list_remove __list_remove
  show (list_write _ _ _ x).next = _
  unfold list_write
  split
  · rfl
  · rw [next_list_set_prev, next_list_set_next _ _ _ _ hp]

theorem prev_list_remove (m : list_memory) (e : Nat) (x : list_ptr)
    (hn : (m (list_ptr.node e)).next ≠ list_ptr.null) :
    ((list_remove m e) x).prev =
      if x = list_ptr.node e then list_ptr.null
      else if x = (m (list_ptr.node e)).next then (m (list_ptr.node e)).prev
      else (m x).prev := by
  unfold list_remove __list_remove
  show (list_write _ _ _ x).prev = _
  unfold list_write
  split
  · rfl
  · rw [prev_list_set_prev _ _ _ _ hn, prev_list_set_next]

theorem ne_null_of_mem (p x : list_ptr) (l : List Nat) (hp : p ≠ list_ptr.null)
    (h : x ∈ p :: l.map list_ptr.node) : x ≠ list_ptr.null := by
  simp only [List.mem_cons, List.mem_map] at h
  rcases h with h | ⟨a, _, h⟩
  · rw [h]; exact hp
  · rw [← h]; exact list_ptr.noConfusion

theorem list_chain_frame (m m2 : list_memory) :
    ∀ (l : List Nat) (p q : list_ptr),
      (∀ x, x ∈ p :: l.map list_ptr.node → (m2 x).next = (m x).next) →
      (∀ x, x ∈ l.map list_ptr.node ++ [q] → (m2 x).prev = (m x).prev) →
      list_chain m p l q → list_chain m2 p l q := by
  intro l
  induction l with
  | nil =>
    intro p q hn hp h
    simp only [list_chain] at h ⊢
    rw [hn p (by simp), hp q (by simp)]
    exact h
  | cons a l ih =>
    intro p q hn hp h
    simp only [list_chain] at h ⊢
    refine ⟨?_, ?_, ?_⟩
    · rw [hn p (by simp)]; exact h.1
    · rw [hp (list_ptr.node a) (by simp)]; exact h.2.1
    · apply ih _ _ _ _ h.2.2
      · intro x hx
        apply hn
        simp only [List.map_cons, List.mem_cons] at hx ⊢
        rcases hx with hx | hx
        · exact Or.inr (Or.inl hx)
        · exact Or.inr (Or.inr hx)
      · intro x hx
        apply hp
        simp only [List.map_cons, List.cons_append, List.mem_cons]
        exact Or.inr hx

theorem list_chain_last (m : list_memory) :
    ∀ (l : List Nat) (p q : list_ptr), list_chain m p l q →
      (m q).prev ∈ p :: l.map list_ptr.node := by
  intro l
  induction l with
  | nil =>
    intro p q h
    simp only [list_chain] at h
    simp [h.2]
  | cons a l ih =>
    intro p q h
    simp only [list_chain] at h
    have := ih _ _ h.2.2
    simp only [List.map_cons, List.mem_cons] at this ⊢
    rcases this with h1 | h1
    · exact Or.inr (Or.inl h1)
    · exact Or.inr (Or.inr h1)

theorem list_chain_mid (m : list_memory) (e : Nat) (l2 : List Nat) (q : list_ptr) :
    ∀ (l1 : List Nat) (p : list_ptr), list_chain m p (l1 ++ e :: l2) q →
      (m (list_ptr.node e)).prev ∈ p :: l1.map list_ptr.node ∧
      (m (list_ptr.node e)).next ∈ l2.map list_ptr.node ++ [q] := by
  intro l1
  induction l1 with
  | nil =>
    intro p h
    simp only [List.nil_append, list_chain] at h
    refine ⟨by simp [h.2.1], ?_⟩
    cases l2 with
    | nil =>
      simp only [list_chain] at h
      simp [h.2.2.1]
    | cons b l2 =>
      simp only [list_chain] at h
      simp [h.2.2.1]
  | cons a l1 ih =>
    intro p h
    simp only [List.cons_append, list_chain] at h
    have := ih _ h.2.2
    refine ⟨?_, this.2⟩
    have h1 := this.1
    simp only [List.map_cons, List.mem_cons] at h1 ⊢
    rcases h1 with h1 | h1
    · exact Or.inr (Or.inl h1)
    · exact Or.inr (Or.inr h1)

theorem list_walk_chain (m : list_memory) :
    ∀ (l : List Nat) (p : list_ptr) (fuel : Nat), list_chain m p l list_ptr.head →
      list_walk m fuel (m p).next = l.take fuel := by
  intro l
  induction l with
  | nil =>
    intro p fuel h
    simp only [list_chain] at h
    rw [h.1]
    cases fuel <;> simp [list_walk]
  | cons a l ih =>
    intro p fuel h
    simp only [list_chain] at h
    rw [h.1]
    cases fuel with
    | zero => simp [list_walk]
    | succ n =>
      simp only [list_walk, List.take_succ_cons]
      rw [ih _ n h.2.2]

theorem list_linked_chain (m : list_memory) (l : List Nat) (e : Nat)
    (h : list_chain m list_ptr.head l list_ptr.head) : list_linked m e ↔ e ∈ l := by
  constructor
  · rintro ⟨fuel, hf⟩
    rw [list_walk_chain m l _ fuel h] at hf
    exact List.mem_of_mem_take hf
  · intro he
    refine ⟨l.length, ?_⟩
    rw [list_walk_chain m l _ _ h, List.take_length]
    exact he

theorem list_chain_add (m : list_memory) (e : Nat) :
    ∀ (l : List Nat) (p : list_ptr), p ≠ list_ptr.null → p ≠ list_ptr.node e → e ∉ l →
      p ∉ l.map list_ptr.node → l.Nodup → list_chain m p l list_ptr.head →
      list_chain (list_add_before m e) p (l ++ [e]) list_ptr.head := by
  intro l
  induction l with
  | nil =>
    intro p hp hpe _ _ _ h
    simp only [list_chain] at h
    have hl : (m list_ptr.head).prev ≠ list_ptr.null := by rw [h.2]; exact hp
    simp only [List.nil_append, list_chain]
    refine ⟨?_, ?_, ?_, ?_⟩
    · rw [next_list_add_before m e p hl, h.2, if_pos rfl]
    · rw [prev_list_add_before, if_neg list_ptr.noConfusion, if_pos rfl, h.2]
    · rw [next_list_add_before m e _ hl, h.2, if_neg (Ne.symm hpe), if_pos rfl]
    · rw [prev_list_add_before, if_pos rfl]
  | cons a l ih =>
    intro p hp hpe he hpl hnd h
    simp only [list_chain] at h
    have hlast := list_chain_last m l _ _ h.2.2
    have hl : (m list_ptr.head).prev ≠ list_ptr.null :=
      ne_null_of_mem _ _ l (node_ne_null a) hlast
    have hae : a ≠ e := fun hh => he (by rw [hh]; exact List.mem_cons_self _ _)
    have hpl2 : p ≠ (m list_ptr.head).prev := by
      intro hh
      apply hpl
      rw [hh]
      simpa using hlast
    simp only [List.cons_append, list_chain]
    refine ⟨?_, ?_, ?_⟩
    · rw [next_list_add_before m e p hl, if_neg hpl2, if_neg hpe]
      exact h.1
    · rw [prev_list_add_before, if_neg list_ptr.noConfusion,
        if_neg (fun hh => hae (list_ptr.node.inj hh))]
      exact h.2.1
    · apply ih _ (node_ne_null a) (fun hh => hae (list_ptr.node.inj hh))
        (fun hh => he (List.mem_cons_of_mem _ hh)) _ (List.nodup_cons.mp hnd).2 h.2.2
      intro hh
      simp only [List.mem_map, list_ptr.node.injEq, exists_eq_right] at hh
      exact (List.nodup_cons.mp hnd).1 hh

theorem list_chain_remove (m : list_memory) (e : Nat) (l2 : List Nat) :
    ∀ (l1 : List Nat) (p : list_ptr), p ≠ list_ptr.null →
      p ∉ (l1 ++ e :: l2).map list_ptr.node → (l1 ++ e :: l2).Nodup →
      list_chain m p (l1 ++ e :: l2) list_ptr.head →
      list_chain (list_remove m e) p (l1 ++ l2) list_ptr.head := by
  intro l1
  induction l1 with
  | nil =>
    intro p hp hpl hnd h
    simp only [List.nil_append] at hpl hnd h ⊢
    have hpe : p ≠ list_ptr.node e := by
      intro hh
      apply hpl
      rw [hh]
      simp
    have hmid := list_chain_mid m e l2 list_ptr.head [] p h
    simp only [list_chain] at h
    have hpp : (m (list_ptr.node e)).prev ≠ list_ptr.null := by rw [h.2.1]; exact hp
    have hnn : (m (list_ptr.node e)).next ≠ list_ptr.null := by
      have := hmid.2
      simp only [List.mem_append, List.mem_map, List.mem_singleton] at this
      rcases this with ⟨b, _, hb⟩ | hb
      · rw [← hb]; exact node_ne_null b
      · rw [hb]; exact head_ne_null
    have hel2 : e ∉ l2 := (List.nodup_cons.mp hnd).1
    cases l2 with
    | nil =>
      simp only [list_chain] at h ⊢
      refine ⟨?_, ?_⟩
      · rw [next_list_remove m e p hpp, if_neg hpe, h.2.1, if_pos rfl]
        exact h.2.2.1
      · rw [prev_list_remove m e _ hnn, if_neg list_ptr.noConfusion, h.2.2.1, if_pos rfl]
        exact h.2.1
    | cons b l2 =>
      simp only [list_chain] at h ⊢
      have hbe : b ≠ e := fun hh => hel2 (by rw [hh]; exact List.mem_cons_self _ _)
      have hnd2 := (List.nodup_cons.mp hnd).2
      have hbl2 : b ∉ l2 := (List.nodup_cons.mp hnd2).1
      refine ⟨?_, ?_, ?_⟩
      · rw [next_list_remove m e p hpp, if_neg hpe, h.2.1, if_pos rfl]
        exact h.2.2.1
      · rw [prev_list_remove m e _ hnn, if_neg (fun hh => hbe (list_ptr.node.inj hh)),
          h.2.2.1, if_pos rfl]
        exact h.2.1
      · apply list_chain_frame m _ l2 _ _ _ _ h.2.2.2.2
        · intro x hx
          have hxe : x ≠ list_ptr.node e := by
            intro hh
            rw [hh] at hx
            simp only [List.mem_cons, list_ptr.node.injEq, List.mem_map, exists_eq_right] at hx
            rcases hx with hx | hx
            · exact hbe hx.symm
            · exact hel2 (List.mem_cons_of_mem _ hx)
          have hxp : x ≠ (m (list_ptr.node e)).prev := by
            rw [h.2.1]
            intro hh
            apply hpl
            rw [← hh]
            simp only [List.map_cons, List.mem_cons] at hx ⊢
            exact Or.inr hx
          rw [next_list_remove m e x hpp, if_neg hxe, if_neg hxp]
        · intro x hx
          have hxe : x ≠ list_ptr.node e := by
            intro hh
            rw [hh] at hx
            simp only [List.mem_append, List.mem_map, list_ptr.node.injEq, exists_eq_right,
              List.mem_singleton, reduceCtorEq, or_false] at hx
            exact hel2 (List.mem_cons_of_mem _ hx)
          have hxn : x ≠ (m (list_ptr.node e)).next := by
            rw [h.2.2.1]
            intro hh
            rw [hh] at hx
            simp only [List.mem_append, List.mem_map, list_ptr.node.injEq, exists_eq_right,
              List.mem_singleton, reduceCtorEq, or_false] at hx
            exact hbl2 hx
          rw [prev_list_remove m e x hnn, if_neg hxe, if_neg hxn]
  | cons a l1 ih =>
    intro p hp hpl hnd h
    have hmid := list_chain_mid m e l2 list_ptr.head (a :: l1) p h
    simp only [List.cons_append] at hpl hnd h ⊢
    simp only [list_chain] at h ⊢
    have hmid2 := list_chain_mid m e l2 list_ptr.head l1 _ h.2.2
    have hpp : (m (list_ptr.node e)).prev ≠ list_ptr.null :=
      ne_null_of_mem _ _ l1 (node_ne_null a) hmid2.1
    have hnn : (m (list_ptr.node e)).next ≠ list_ptr.null := by
      have := hmid.2
      simp only [List.mem_append, List.mem_map, List.mem_singleton] at this
      rcases this with ⟨b, _, hb⟩ | hb
      · rw [← hb]; exact node_ne_null b
      · rw [hb]; exact head_ne_null
    have hnd1 := List.nodup_cons.mp hnd
    have hae : a ≠ e := fun hh => hnd1.1 (by rw [hh]; simp)
    have hpe : p ≠ list_ptr.node e := by
      intro hh
      apply hpl
      rw [hh]
      simp
    have hpp2 : p ≠ (m (list_ptr.node e)).prev := by
      intro hh
      apply hpl
      rw [hh]
      have := hmid2.1
      simp only [List.map_cons, List.map_append, List.mem_cons, List.mem_append] at this ⊢
      rcases this with h1 | h1
      · exact Or.inl h1
      · exact Or.inr (Or.inl h1)
    have han : list_ptr.node a ≠ (m (list_ptr.node e)).next := by
      intro hh
      have := hmid.2
      rw [← hh] at this
      simp only [List.mem_append, List.mem_map, list_ptr.node.injEq, exists_eq_right,
        List.mem_singleton, reduceCtorEq, or_false] at this
      exact hnd1.1 (List.mem_append_right _ (List.mem_cons_of_mem _ this))
    refine ⟨?_, ?_, ?_⟩
    · rw [next_list_remove m e p hpp, if_neg hpe, if_neg hpp2]
      exact h.1
    · rw [prev_list_remove m e _ hnn, if_neg (fun hh => hae (list_ptr.node.inj hh)),
        if_neg han]
      exact h.2.1
    · apply ih _ (node_ne_null a) _ hnd1.2 h.2.2
      intro hh
      simp only [List.mem_map, list_ptr.node.injEq, exists_eq_right] at hh
      exact hnd1.1 hh

theorem list_is_node_added_iff (m : list_memory) (x : Nat) :
    list_is_node_added m x = true ↔
      (m (list_ptr.node x)).next ≠ list_ptr.null ∧ (m (list_ptr.node x)).prev ≠ list_ptr.null := by
  simp [list_is_node_added]

theorem mem_of_node_mem (x : Nat) (p : list_ptr) (l : List Nat) (hp : list_ptr.node x ≠ p)
    (h : list_ptr.node x ∈ p :: l.map list_ptr.node) : x ∈ l := by
  simp only [List.mem_cons, List.mem_map, list_ptr.node.injEq, exists_eq_right] at h
  rcases h with h | h
  · exact absurd h hp
  · exact h

theorem mem_of_node_mem_append (x : Nat) (l : List Nat)
    (h : list_ptr.node x ∈ l.map list_ptr.node ++ [list_ptr.head]) : x ∈ l := by
  simpa using h

theorem registry_is_add (e : Nat) (w : World) (l : List Nat) (h : registry_is w l)
    (hna : list_is_node_added w._socket_head e = false) :
    registry_is (oonf_socket_add e w) (l ++ [e]) := by
  obtain ⟨hnd, hch, hadd, hsock⟩ := h
  have he : e ∉ l := by
    intro hh
    rw [(hadd e).mpr hh] at hna
    exact absurd hna (by decide)
  have hlast := list_chain_last _ l _ _ hch
  have hl : (w._socket_head list_ptr.head).prev ≠ list_ptr.null :=
    ne_null_of_mem _ _ l head_ne_null hlast
  refine ⟨?_, ?_, ?_, ?_⟩
  · rw [List.nodup_append]
    refine ⟨hnd, List.nodup_singleton e, ?_⟩
    intro a ha hb
    rw [List.mem_singleton] at hb
    exact he (hb ▸ ha)
  · exact list_chain_add _ e l _ head_ne_null list_ptr.noConfusion he (by simp) hnd hch
  · intro x
    show list_is_node_added (list_add_before w._socket_head e) x = true ↔ _
    rw [list_is_node_added_iff, next_list_add_before _ e _ hl, prev_list_add_before,
      if_neg (show list_ptr.node x ≠ list_ptr.head from list_ptr.noConfusion)]
    by_cases hxe : x = e
    · subst hxe
      simp only [if_true, List.mem_append, List.mem_singleton, or_true, iff_true]
      refine ⟨?_, hl⟩
      split
      · exact node_ne_null x
      · exact head_ne_null
    · have hne : list_ptr.node x ≠ list_ptr.node e := fun hh => hxe (list_ptr.node.inj hh)
      rw [if_neg hne, if_neg hne]
      have hmem : x ∈ l ++ [e] ↔ x ∈ l := by simp [hxe]
      rw [hmem, ← hadd x, list_is_node_added_iff]
      by_cases hxl : list_ptr.node x = (w._socket_head list_ptr.head).prev
      · rw [if_pos hxl]
        have hx : x ∈ l := mem_of_node_mem x _ l list_ptr.noConfusion (hxl ▸ hlast)
        have := (list_is_node_added_iff _ x).mp ((hadd x).mpr hx)
        exact ⟨fun _ => this, fun hh => ⟨node_ne_null e, hh.2⟩⟩
      · rw [if_neg hxl]
  · intro x
    show x ∈ l ++ [e] ↔ x ∈ w._socket_events.sockets ++ [e]
    simp only [List.mem_append, hsock x]

theorem registry_is_remove (e : Nat) (w : World) (l : List Nat) (h : registry_is w l) :
    ∃ l2, registry_is (oonf_socket_remove e w) l2 := by
  unfold oonf_socket_remove
  split
  · next hg =>
    obtain ⟨hnd, hch, hadd, hsock⟩ := h
    have hel : e ∈ l := (hadd e).mp hg
    obtain ⟨l1, l2, rfl⟩ := List.append_of_mem hel
    have hmid := list_chain_mid _ e l2 list_ptr.head l1 _ hch
    have hpp : (w._socket_head (list_ptr.node e)).prev ≠ list_ptr.null :=
      ne_null_of_mem _ _ l1 head_ne_null hmid.1
    have hnn : (w._socket_head (list_ptr.node e)).next ≠ list_ptr.null := by
      have := hmid.2
      simp only [List.mem_append, List.mem_map, List.mem_singleton] at this
      rcases this with ⟨b, _, hb⟩ | hb
      · rw [← hb]; exact node_ne_null b
      · rw [hb]; exact head_ne_null
    have hnd2 : (l1 ++ l2).Nodup :=
      hnd.sublist (List.Sublist.append_left (List.sublist_cons_self e l2) l1)
    have he12 : e ∉ l1 ++ l2 := by
      have := List.nodup_middle.mp hnd
      exact (List.nodup_cons.mp this).1
    refine ⟨l1 ++ l2, hnd2, ?_, ?_, ?_⟩
    · exact list_chain_remove _ e l2 l1 _ head_ne_null (by simp) hnd hch
    · intro x
      show list_is_node_added (list_remove w._socket_head e) x = true ↔ _
      rw [list_is_node_added_iff, next_list_remove _ e _ hpp, prev_list_remove _ e _ hnn]
      by_cases hxe : x = e
      · subst hxe
        simp only [if_true, ne_eq, not_true_eq_false, and_self, false_iff]
        exact he12
      · have hne : list_ptr.node x ≠ list_ptr.node e := fun hh => hxe (list_ptr.node.inj hh)
        rw [if_neg hne, if_neg hne]
        have hmem : x ∈ l1 ++ l2 ↔ x ∈ l1 ++ e :: l2 := by
          simp only [List.mem_append, List.mem_cons, hxe, false_or]
        rw [hmem, ← hadd x, list_is_node_added_iff]
        by_cases hxp : list_ptr.node x = (w._socket_head (list_ptr.node e)).prev
        · have hx : x ∈ l1 ++ e :: l2 :=
            List.mem_append_left _ (mem_of_node_mem x _ l1 list_ptr.noConfusion (hxp ▸ hmid.1))
          have hold := (list_is_node_added_iff _ x).mp ((hadd x).mpr hx)
          rw [if_pos hxp]
          refine ⟨fun _ => hold, fun _ => ⟨hnn, ?_⟩⟩
          split
          · exact hpp
          · exact hold.2
        · rw [if_neg hxp]
          by_cases hxn : list_ptr.node x = (w._socket_head (list_ptr.node e)).next
          · have hx : x ∈ l1 ++ e :: l2 :=
              List.mem_append_right _
                (List.mem_cons_of_mem _ (mem_of_node_mem_append x l2 (hxn ▸ hmid.2)))
            have hold := (list_is_node_added_iff _ x).mp ((hadd x).mpr hx)
            rw [if_pos hxn]
            exact ⟨fun _ => hold, fun _ => ⟨hold.1, hpp⟩⟩
          · rw [if_neg hxn]
    · intro x
      show x ∈ l1 ++ l2 ↔ x ∈ w._socket_events.sockets.filter (fun y => y != e)
      rw [List.mem_filter, ← hsock x]
      by_cases hxe : x = e
      · subst hxe
        simp only [bne_self_eq_false, Bool.false_eq_true, and_false, iff_false]
        exact he12
      · simp only [List.mem_append, List.mem_cons, hxe, false_or, bne_iff_ne, ne_eq,
          not_false_eq_true, and_true]
  · exact ⟨l, h⟩

theorem registry_is_init (w0 : World)
    (h0 : ∀ x, list_is_node_added w0._socket_head x = false) :
    registry_is (_init 0 w0).2 [] := by
  refine ⟨List.nodup_nil, ?_, ?_, ?_⟩
  · simp [_init, list_chain, list_init_head, list_write]
  · intro x
    have : list_is_node_added (_init 0 w0).2._socket_head x
        = list_is_node_added w0._socket_head x := by
      simp [_init, list_is_node_added, list_init_head, list_write]
    rw [this, h0 x]
    simp
  · intro x
    simp [_init, os_fd_event_add]

theorem registry_is_run_calls (calls : List RegistryCall) :
    ∀ (w : World) (l : List Nat), registry_is w l → calls_admissible calls w = true →
      ∃ l2, registry_is (run_calls calls w) l2 := by
  induction calls with
  | nil => intro w l h _; exact ⟨l, h⟩
  | cons c cs ih =>
    intro w l h hadm
    cases c with
    | add e =>
      simp only [calls_admissible, Bool.and_eq_true, Bool.not_eq_true'] at hadm
      exact ih _ _ (registry_is_add e w l h hadm.1) hadm.2
    | remove e =>
      simp only [calls_admissible] at hadm
      obtain ⟨l2, h2⟩ := registry_is_remove e w l h
      exact ih _ _ h2 hadm

theorem calls_admissible_take (calls : List RegistryCall) :
    ∀ (w : World) (k : Nat), calls_admissible calls w = true →
      calls_admissible (calls.take k) w = true := by
  induction calls with
  | nil => intro w k _; simp [calls_admissible]
  | cons c cs ih =>
    intro w k hadm
    cases k with
    | zero => simp [calls_admissible]
    | succ n =>
      cases c with
      | add e =>
        simp only [calls_admissible, Bool.and_eq_true, Bool.not_eq_true', List.take_succ_cons]
          at hadm ⊢
        exact ⟨hadm.1, ih _ n hadm.2⟩
      | remove e =>
        simp only [calls_admissible, List.take_succ_cons] at hadm ⊢
        exact ih _ n hadm

theorem registry_is_agrees (w : World) (l : List Nat) (h : registry_is w l) :
    registry_agrees w := by
  intro e
  rw [list_linked_chain _ l e h.2.1]
  exact h.2.2.2 e

/-- C1, as stated, fails: on the freshly initialised scheduler the calls
`oonf_socket_add(5)`, `oonf_socket_add(5)`, `oonf_socket_remove(5)` leave the head
of the registry pointing at entry 5, which is still met when the list is walked,
while the node of entry 5 is cleared and its descriptor is no longer registered
with the multiplexer. -/
theorem C1_double_add_corrupts_registry :
    list_linked
        (run_calls [.add 5, .add 5, .remove 5] (_init 0 world0).2)._socket_head 5 ∧
    5 ∉ (run_calls [.add 5, .add 5, .remove 5] (_init 0 world0).2)._socket_events.sockets ∧
    ((run_calls [.add 5, .add 5, .remove 5] (_init 0 world0).2)._socket_head
        list_ptr.head).next = list_ptr.node 5 ∧
    list_is_node_added
        (run_calls [.add 5, .add 5, .remove 5] (_init 0 world0).2)._socket_head 5 = false :=
  ⟨⟨1, by decide⟩, by decide, by decide, by decide⟩

/-- C1, amended: for every sequence of `oonf_socket_add` / `oonf_socket_remove`
calls applied to the freshly initialised scheduler, with the nodes of all entries
initialised (not linked) at the start, in which `oonf_socket_add` is never
called on an entry that is linked at that moment, after every call of the
sequence (after every prefix `calls.take k`) an entry is linked in the registry
`_socket_head` exactly when its descriptor is registered with the multiplexer
`_socket_events`; this holds both for the entries met when the list is walked
from the head and for the test `list_is_node_added`. -/
theorem C1_registry_matches_watch_set_for_fresh_adds (w0 : World)
    (calls : List RegistryCall) (k e : Nat)
    (h0 : ∀ x, list_is_node_added w0._socket_head x = false)
    (hadm : calls_admissible calls (_init 0 w0).2 = true) :
    (list_linked (run_calls (calls.take k) (_init 0 w0).2)._socket_head e ↔
      e ∈ (run_calls (calls.take k) (_init 0 w0).2)._socket_events.sockets) ∧
    (list_is_node_added (run_calls (calls.take k) (_init 0 w0).2)._socket_head e = true ↔
      e ∈ (run_calls (calls.take k) (_init 0 w0).2)._socket_events.sockets) := by
  obtain ⟨l, hl⟩ := registry_is_run_calls (calls.take k) _ [] (registry_is_init w0 h0)
    (calls_admissible_take calls _ k hadm)
  refine ⟨registry_is_agrees _ l hl e, ?_⟩
  rw [hl.2.2.1 e]
  exact hl.2.2.2 e

/-- C1, amended, on an example: entries 3 and 5 are added, 3 is removed and
added again; after these four calls entry 5 is linked and registered. -/
theorem C1_registry_matches_watch_set_for_fresh_adds_witness :
    list_linked
        (run_calls (List.take 4 [.add 3, .add 5, .remove 3, .add 3])
          (_init 0 world0).2)._socket_head 5 ↔
      5 ∈ (run_calls (List.take 4 [.add 3, .add 5, .remove 3, .add 3])
          (_init 0 world0).2)._socket_events.sockets :=
  (C1_registry_matches_watch_set_for_fresh_adds world0
    [.add 3, .add 5, .remove 3, .add 3] 4 5 (fun _ => rfl) (by decide)).1

/-! ## Registry frame properties -/

theorem not_linked_of_is_empty (m : list_memory) (h : list_is_empty m = true) (x : Nat) :
    ¬ list_linked m x := by
  simp only [list_is_empty, Bool.and_eq_true, beq_iff_eq] at h
  rintro ⟨fuel, hf⟩
  rw [h.1] at hf
  cases fuel <;> simp [list_walk] at hf

/-- C10: `oonf_socket_remove` on an entry that is not linked leaves the whole
state unchanged (registry, watch set and closed descriptors included); starting
with an empty registry and an empty watch set, `oonf_socket_add e` followed by
`oonf_socket_remove e` leaves both empty (the head points to itself again, the
node of `e` is cleared, no entry is met when the list is walked); and neither
sequence closes a descriptor. -/
theorem C10_remove_unregistered_and_add_remove (e : Nat) (w : World) :
    (list_is_node_added w._socket_head e = false → oonf_socket_remove e w = w) ∧
    (list_is_empty w._socket_head = true → w._socket_events.sockets = [] →
      list_is_empty (oonf_socket_remove e (oonf_socket_add e w))._socket_head = true ∧
      list_is_node_added (oonf_socket_remove e (oonf_socket_add e w))._socket_head e
        = false ∧
      (∀ x, ¬ list_linked (oonf_socket_remove e (oonf_socket_add e w))._socket_head x) ∧
      (oonf_socket_remove e (oonf_socket_add e w))._socket_events.sockets = []) ∧
    (oonf_socket_remove e w).closed = w.closed ∧
    (oonf_socket_remove e (oonf_socket_add e w)).closed = w.closed := by
  refine ⟨?_, ?_, ?_, ?_⟩
  · intro h
    simp [oonf_socket_remove, h]
  · intro h1 h2
    have hh := h1
    simp only [list_is_empty, Bool.and_eq_true, beq_iff_eq] at hh
    have hl : (w._socket_head list_ptr.head).prev ≠ list_ptr.null := by
      rw [hh.2]; exact head_ne_null
    have hne : list_ptr.node e ≠ list_ptr.head := list_ptr.noConfusion
    have hn1 : ((list_add_before w._socket_head e) (list_ptr.node e)).next = list_ptr.head := by
      rw [next_list_add_before _ e _ hl, hh.2, if_neg hne, if_pos rfl]
    have hp1 : ((list_add_before w._socket_head e) (list_ptr.node e)).prev = list_ptr.head := by
      rw [prev_list_add_before, if_neg hne, if_pos rfl, hh.2]
    have hg : list_is_node_added (oonf_socket_add e w)._socket_head e = true := by
      show list_is_node_added (list_add_before w._socket_head e) e = true
      rw [list_is_node_added_iff, hn1, hp1]
      exact ⟨head_ne_null, head_ne_null⟩
    have hm : (oonf_socket_remove e (oonf_socket_add e w))._socket_head
        = list_remove (list_add_before w._socket_head e) e := by
      simp only [oonf_socket_remove, hg, if_true]
      rfl
    have hs : (oonf_socket_remove e (oonf_socket_add e w))._socket_events.sockets = [] := by
      simp only [oonf_socket_remove, hg, if_true]
      simp [oonf_socket_add, os_fd_event_socket_add, os_fd_event_socket_remove, h2]
    have hpp : ((list_add_before w._socket_head e) (list_ptr.node e)).prev ≠ list_ptr.null := by
      rw [hp1]; exact head_ne_null
    have hnn : ((list_add_before w._socket_head e) (list_ptr.node e)).next ≠ list_ptr.null := by
      rw [hn1]; exact head_ne_null
    have hempty : list_is_empty (oonf_socket_remove e (oonf_socket_add e w))._socket_head
        = true := by
      rw [hm]
      simp only [list_is_empty, Bool.and_eq_true, beq_iff_eq]
      rw [next_list_remove _ e _ hpp, prev_list_remove _ e _ hnn, hn1, hp1,
        if_neg (Ne.symm hne), if_neg (Ne.symm hne), if_pos rfl, if_pos rfl]
      exact ⟨rfl, rfl⟩
    refine ⟨hempty, ?_, not_linked_of_is_empty _ hempty, hs⟩
    rw [hm, ← Bool.not_eq_true, list_is_node_added_iff, next_list_remove _ e _ hpp,
      if_pos rfl]
    exact fun h => h.1 rfl
  · unfold oonf_socket_remove
    split <;> rfl
  · unfold oonf_socket_remove
    split <;> rfl

/-- C10 on an example: removing entry 5 from a registry holding only entry 4
changes nothing, and adding then removing entry 5 on the empty registry leaves
registry and watch set empty. -/
theorem C10_remove_unregistered_and_add_remove_witness :
    oonf_socket_remove 5 (oonf_socket_add 4 world0) = oonf_socket_add 4 world0 ∧
    list_is_empty (oonf_socket_remove 5 (oonf_socket_add 5 world0))._socket_head = true ∧
    (oonf_socket_remove 5 (oonf_socket_add 5 world0))._socket_events.sockets = [] :=
  ⟨(C10_remove_unregistered_and_add_remove 5 (oonf_socket_add 4 world0)).1 (by decide),
   ((C10_remove_unregistered_and_add_remove 5 world0).2.1 (by decide) rfl).1,
   ((C10_remove_unregistered_and_add_remove 5 world0).2.1 (by decide) rfl).2.2.2⟩

/-! ## The shutdown deadline is written by `_initiate_shutdown` only -/

theorem limit_registry_call (c : RegistryCall) (w : World) :
    (c.run w)._scheduler_time_limit = w._scheduler_time_limit := by
  cases c with
  | add e => rfl
  | remove e =>
    simp only [RegistryCall.run, oonf_socket_remove]
    split <;> rfl

theorem limit_action (a : Action) (w : World) :
    (a.run w)._scheduler_time_limit = w._scheduler_time_limit := by
  cases a with
  | registry c => exact limit_registry_call c w
  | set_read e b => rfl
  | set_write e b => rfl

theorem limit_run_actions (as : List Action) :
    ∀ w : World, (run_actions as w)._scheduler_time_limit = w._scheduler_time_limit := by
  induction as with
  | nil => intro w; rfl
  | cons a as ih => intro w; simp only [run_actions]; rw [ih, limit_action]

theorem mask_action (a : Action) (w : World) :
    (a.run w).log_global_mask = w.log_global_mask := by
  cases a with
  | registry c =>
    cases c with
    | add e => rfl
    | remove e =>
      simp only [Action.run, RegistryCall.run, oonf_socket_remove]
      split <;> rfl
  | set_read e b => rfl
  | set_write e b => rfl

theorem mask_run_actions (as : List Action) :
    ∀ w : World, (run_actions as w).log_global_mask = w.log_global_mask := by
  induction as with
  | nil => intro w; rfl
  | cons a as ih => intro w; simp only [run_actions]; rw [ih, mask_action]

theorem limit_dispatch (cfg : Config) (slots : List Slot) :
    ∀ w : World, (dispatch cfg slots w).2._scheduler_time_limit = w._scheduler_time_limit := by
  induction slots with
  | nil => intro w; rfl
  | cons s ss ih =>
    intro w
    simp only [dispatch]
    split
    · split
      · exact ih w
      · simp only [ih, limit_run_actions]
    · exact ih w

theorem limit_set_next_deadline (ne : Nat) (w : World) :
    (set_next_deadline ne w)._scheduler_time_limit = w._scheduler_time_limit := by
  unfold set_next_deadline
  dsimp only
  split <;> split <;> rfl

theorem mask_set_next_deadline (ne : Nat) (w : World) :
    (set_next_deadline ne w).log_global_mask = w.log_global_mask := by
  unfold set_next_deadline
  dsimp only
  split <;> split <;> rfl

theorem limit_after_wait (cfg : Config) (clock2 : Option Nat) (wt : WaitTry) (w : World) :
    (after_wait cfg clock2 wt w).2.2._scheduler_time_limit = w._scheduler_time_limit := by
  unfold after_wait
  split
  · rfl
  · split
    · rfl
    · split
      · rfl
      · simp only [limit_dispatch]

theorem limit_after_clock (cfg : Config) (it : Iter) (w : World) :
    (after_clock cfg it w).2.2._scheduler_time_limit = w._scheduler_time_limit := by
  unfold after_clock
  dsimp only
  split
  · simp only [limit_run_actions]
  · split <;>
      simp only [limit_after_wait, limit_set_next_deadline, limit_run_actions]

theorem limit_iteration (cfg : Config) (it : Iter) (w : World) :
    (iteration cfg it w).2.2._scheduler_time_limit = w._scheduler_time_limit := by
  unfold iteration
  split
  · rfl
  · dsimp only
    split
    · rfl
    · simp only [limit_after_clock]

theorem limit_handle_scheduling (cfg : Config) (script : List Iter) :
    ∀ w : World,
      (_handle_scheduling cfg script w).world._scheduler_time_limit
        = w._scheduler_time_limit := by
  induction script with
  | nil => intro w; rfl
  | cons it rest ih =>
    intro w
    have h := limit_iteration cfg it w
    simp only [_handle_scheduling]
    split
    · next heq => rw [heq] at h; exact h
    · next heq => rw [heq] at h; exact h
    · next heq => rw [heq] at h; simp only [ih]; exact h

theorem limit_cleanup_loop (rounds : Nat) :
    ∀ (p : list_ptr) (w : World),
      (cleanup_loop rounds p w)._scheduler_time_limit = w._scheduler_time_limit := by
  induction rounds with
  | zero => intro p w; rfl
  | succ n ih =>
    intro p w
    cases p with
    | null => rfl
    | head => rfl
    | node e =>
      simp only [cleanup_loop]
      rw [ih]

theorem limit_cleanup (rounds : Nat) (w : World) :
    (_cleanup rounds w)._scheduler_time_limit = w._scheduler_time_limit :=
  limit_cleanup_loop rounds _ w

theorem limit_op (o : Op) (w : World) (h : o.is_shutdown = false) :
    (o.run w)._scheduler_time_limit = w._scheduler_time_limit := by
  cases o with
  | action a => exact limit_action a w
  | clock t => rfl
  | shutdown => simp [Op.is_shutdown] at h
  | schedule cfg script => exact limit_handle_scheduling cfg script w
  | cleanup rounds => exact limit_cleanup rounds w

theorem limit_run_ops (ops : List Op) :
    ∀ w : World, (∀ o ∈ ops, o.is_shutdown = false) →
      (run_ops ops w)._scheduler_time_limit = w._scheduler_time_limit := by
  induction ops with
  | nil => intro w _; rfl
  | cons o os ih =>
    intro w h
    simp only [run_ops]
    rw [ih _ (fun x hx => h x (List.mem_cons_of_mem _ hx)),
      limit_op o w (h o (List.mem_cons_self _ _))]

theorem run_ops_append (ops1 ops2 : List Op) :
    ∀ w : World, run_ops (ops1 ++ ops2) w = run_ops ops2 (run_ops ops1 w) := by
  induction ops1 with
  | nil => intro w; rfl
  | cons o os ih =>
    intro w
    show run_ops (os ++ ops2) (o.run w) = _
    exact ih _

/-- C2, as stated, fails: after initialisation a first shutdown request at clock
time 1000 sets the deadline to 1500, and a further request at clock time 2000
moves it to 2500 instead of leaving it at 1500. -/
theorem C2_second_request_moves_deadline :
    (run_ops [Op.clock 1000, Op.shutdown] (_init 0 world0).2)._scheduler_time_limit = 1500 ∧
    (run_ops [Op.clock 1000, Op.shutdown, Op.clock 2000, Op.shutdown]
        (_init 0 world0).2)._scheduler_time_limit = 2500 := by
  decide

/-- C2, amended: from initialisation on the deadline `_scheduler_time_limit` is
the sentinel `~0ull` as long as no shutdown was requested, whatever other
operations run (registry calls, interest setters, clock refreshes, runs of
`_handle_scheduling`, `_cleanup`); every shutdown request, the first and any
further one, sets it to `(now + 500) mod 2^64` for the clock time `now` of that
request (which is `now + 500` when that is below `2^64`); and no operation other
than a shutdown request changes it afterwards. -/
theorem C2_deadline_set_by_each_request (w0 : World) (ops1 ops2 : List Op)
    (h2 : ∀ o ∈ ops2, o.is_shutdown = false) :
    (run_ops ops2 (_init 0 w0).2)._scheduler_time_limit = UINT64_MAX ∧
    (run_ops (ops1 ++ Op.shutdown :: ops2) (_init 0 w0).2)._scheduler_time_limit
      = ((run_ops ops1 (_init 0 w0).2).now + 500) % 2 ^ 64 ∧
    ((run_ops ops1 (_init 0 w0).2).now + 500 < 2 ^ 64 →
      (run_ops (ops1 ++ Op.shutdown :: ops2) (_init 0 w0).2)._scheduler_time_limit
        = (run_ops ops1 (_init 0 w0).2).now + 500) := by
  have key : (run_ops (ops1 ++ Op.shutdown :: ops2) (_init 0 w0).2)._scheduler_time_limit
      = ((run_ops ops1 (_init 0 w0).2).now + 500) % 2 ^ 64 := by
    rw [run_ops_append]
    simp only [run_ops]
    rw [limit_run_ops ops2 _ h2]
    rfl
  refine ⟨?_, key, ?_⟩
  · rw [limit_run_ops ops2 _ h2]
    rfl
  · intro hlt
    rw [key, Nat.mod_eq_of_lt hlt]

/-- C2, amended, on an example: a first request at time 1000, then a registry
call and a run of the loop, then a second request at time 2000 and a clock
refresh. -/
theorem C2_deadline_set_by_each_request_witness :
    (run_ops [Op.clock 7] (_init 0 world0).2)._scheduler_time_limit = UINT64_MAX ∧
    (run_ops
        ([Op.clock 1000, Op.shutdown, Op.action (.registry (.add 3)),
            Op.schedule config0 [⟨some 1100, [], false, 5000, [], none⟩], Op.clock 2000]
          ++ Op.shutdown :: [Op.clock 7])
        (_init 0 world0).2)._scheduler_time_limit = 2500 :=
  ⟨(C2_deadline_set_by_each_request world0 [] [Op.clock 7] (by decide)).1,
   ((C2_deadline_set_by_each_request world0
      [Op.clock 1000, Op.shutdown, Op.action (.registry (.add 3)),
        Op.schedule config0 [⟨some 1100, [], false, 5000, [], none⟩], Op.clock 2000]
      [Op.clock 7] (by decide)).2.1).trans (by decide)⟩

/-! ## Path lemmas of the scheduling loop -/

theorem shall_end_congr (w1 w2 : World) (stop : Bool)
    (h : w1._scheduler_time_limit = w2._scheduler_time_limit) :
    _shall_end_scheduler w1 stop = _shall_end_scheduler w2 stop := by
  simp only [_shall_end_scheduler, h]

theorem deadline_set_next_deadline (ne : Nat) (w : World) :
    (set_next_deadline ne w)._socket_events.deadline = min ne w._scheduler_time_limit := by
  unfold set_next_deadline
  dsimp only
  split
  · next h =>
    have hm : min ne w._scheduler_time_limit = w._scheduler_time_limit :=
      Nat.min_eq_right (Nat.le_of_lt h)
    split
    · simp only [os_fd_event_set_deadline, hm]
    · next h2 =>
      simp only [os_fd_event_get_deadline, bne_iff_ne, ne_eq, Decidable.not_not] at h2
      rw [hm, h2]
  · next h =>
    have hm : min ne w._scheduler_time_limit = ne := Nat.min_eq_left (Nat.le_of_not_lt h)
    split
    · simp only [os_fd_event_set_deadline, hm]
    · next h2 =>
      simp only [os_fd_event_get_deadline, bne_iff_ne, ne_eq, Decidable.not_not] at h2
      rw [hm, h2]

theorem limit_wait_world (it : Iter) (t : Nat) (w : World) :
    (wait_world it t w)._scheduler_time_limit = w._scheduler_time_limit := by
  simp only [wait_world, limit_set_next_deadline, limit_run_actions]

theorem deadline_wait_world (it : Iter) (t : Nat) (w : World) :
    (wait_world it t w)._socket_events.deadline
      = min it.next_event w._scheduler_time_limit := by
  simp only [wait_world, deadline_set_next_deadline, limit_run_actions]

theorem wait_loop_events (w : World) (ne : Nat) (ts : List WaitTry) :
    ∀ ev ∈ (wait_loop w ne ts).1,
      ev = Event.wait w._socket_events.deadline ne w._scheduler_time_limit := by
  induction ts with
  | nil => intro ev h; simp [wait_loop] at h
  | cons t ts ih =>
    intro ev h
    simp only [wait_loop] at h
    split at h
    · simp at h
    · split at h
      · simp only [List.mem_cons] at h
        rcases h with h | h
        · exact h
        · exact ih ev h
      · simp only [List.mem_singleton] at h
        exact h

theorem wait_loop_retry (w : World) (ne : Nat) (fails : List WaitTry) (wt : WaitTry)
    (more : List WaitTry)
    (hf : ∀ f ∈ fails, f.n = -1 ∧ f.errno = EINTR ∧ _shall_end_scheduler w f.stop = false)
    (hs : _shall_end_scheduler w wt.stop = false)
    (hr : ¬ (wt.n = -1 ∧ wt.errno = EINTR)) :
    wait_loop w ne (fails ++ wt :: more) =
      (List.replicate (fails.length + 1)
          (Event.wait w._socket_events.deadline ne w._scheduler_time_limit),
        WaitOutcome.result wt) := by
  induction fails with
  | nil =>
    simp only [List.nil_append, wait_loop, hs, Bool.false_eq_true, if_false, hr,
      os_fd_event_get_deadline, List.length_nil, Nat.zero_add, List.replicate_one]
  | cons f fs ih =>
    have hf1 := hf f (List.mem_cons_self _ _)
    have ih1 := ih (fun x hx => hf x (List.mem_cons_of_mem _ hx))
    show wait_loop w ne (f :: (fs ++ wt :: more)) = _
    simp only [wait_loop, hf1.2.2, Bool.false_eq_true, if_false, hf1.1,
      hf1.2.1, and_self, if_true, ih1, os_fd_event_get_deadline, List.length_cons,
      List.replicate_succ]

theorem iteration_reaches_result (cfg : Config) (it : Iter) (w : World) (t : Nat)
    (fails : List WaitTry) (wt : WaitTry) (more : List WaitTry)
    (hc : it.clock1 = some t) (hnow : t < w._scheduler_time_limit)
    (hstop : _shall_end_scheduler w it.stop = false)
    (hw : it.waits = fails ++ wt :: more)
    (hf : ∀ f ∈ fails, f.n = -1 ∧ f.errno = EINTR ∧ _shall_end_scheduler w f.stop = false)
    (hs : _shall_end_scheduler w wt.stop = false)
    (hr : ¬ (wt.n = -1 ∧ wt.errno = EINTR)) :
    iteration cfg it w =
      ((after_wait cfg it.clock2 wt (wait_world it t w)).1,
        [Event.clock_update true, Event.timer_walk]
          ++ List.replicate (fails.length + 1)
              (Event.wait (min it.next_event w._scheduler_time_limit) it.next_event
                w._scheduler_time_limit)
          ++ (after_wait cfg it.clock2 wt (wait_world it t w)).2.1,
        (after_wait cfg it.clock2 wt (wait_world it t w)).2.2) := by
  have hstop2 : _shall_end_scheduler (run_actions it.timers { w with now := t }) it.stop
      = false := by
    rw [shall_end_congr _ w it.stop (by rw [limit_run_actions])]
    exact hstop
  have hf3 : ∀ f ∈ fails, f.n = -1 ∧ f.errno = EINTR ∧
      _shall_end_scheduler (wait_world it t w) f.stop = false := by
    intro f hfm
    rw [shall_end_congr _ w f.stop (limit_wait_world it t w)]
    exact hf f hfm
  have hs3 : _shall_end_scheduler (wait_world it t w) wt.stop = false := by
    rw [shall_end_congr _ w wt.stop (limit_wait_world it t w)]
    exact hs
  have hloop := wait_loop_retry (wait_world it t w) it.next_event fails wt more hf3 hs3 hr
  rw [deadline_wait_world, limit_wait_world] at hloop
  unfold iteration
  rw [hc]
  dsimp only
  rw [if_neg (Nat.not_le_of_lt hnow)]
  unfold after_clock
  dsimp only
  rw [hstop2]
  simp only [Bool.false_eq_true, if_false]
  rw [hw]
  unfold wait_world at hloop
  rw [hloop]
  simp [wait_world]

/-! ## The wait deadline -/

theorem dispatch_not_wait (cfg : Config) (slots : List Slot) :
    ∀ w : World, ∀ ev ∈ (dispatch cfg slots w).1, ev.is_wait = false := by
  induction slots with
  | nil => intro w ev h; simp [dispatch] at h
  | cons s ss ih =>
    intro w ev h
    simp only [dispatch] at h
    split at h
    · split at h
      · exact ih w ev h
      · simp only [List.mem_cons, List.mem_append] at h
        rcases h with h | h | h
        · subst h; rfl
        · split at h
          · simp only [List.mem_singleton] at h
            subst h; rfl
          · simp at h
        · exact ih _ ev h
    · exact ih w ev h

theorem after_wait_not_wait (cfg : Config) (clock2 : Option Nat) (wt : WaitTry) (w : World) :
    ∀ ev ∈ (after_wait cfg clock2 wt w).2.1, ev.is_wait = false := by
  intro ev h
  unfold after_wait at h
  split at h
  · simp at h
  · split at h
    · simp only [List.mem_singleton] at h
      subst h; rfl
    · split at h
      · simp only [List.mem_singleton] at h
        subst h; rfl
      · simp only [List.mem_cons] at h
        rcases h with h | h
        · subst h; rfl
        · exact dispatch_not_wait _ _ _ ev h

theorem after_clock_wait (cfg : Config) (it : Iter) (w : World) :
    ∀ ev ∈ (after_clock cfg it w).2.1, ev.is_wait = true →
      ev = Event.wait (min it.next_event w._scheduler_time_limit) it.next_event
        w._scheduler_time_limit := by
  intro ev hmem hw
  have hev := wait_loop_events (set_next_deadline it.next_event (run_actions it.timers w))
    it.next_event it.waits
  rw [deadline_set_next_deadline, limit_set_next_deadline, limit_run_actions] at hev
  unfold after_clock at hmem
  dsimp only at hmem
  split at hmem
  · simp only [List.mem_singleton] at hmem
    subst hmem
    simp [Event.is_wait] at hw
  · split at hmem
    · next tr heq =>
      rw [heq] at hev
      simp only [List.mem_cons] at hmem
      rcases hmem with h | h
      · subst h; simp [Event.is_wait] at hw
      · exact hev ev h
    · next tr heq =>
      rw [heq] at hev
      simp only [List.mem_cons] at hmem
      rcases hmem with h | h
      · subst h; simp [Event.is_wait] at hw
      · exact hev ev h
    · next tr wt heq =>
      rw [heq] at hev
      simp only [List.mem_cons, List.mem_append] at hmem
      rcases hmem with h | h | h
      · subst h; simp [Event.is_wait] at hw
      · exact hev ev h
      · have := after_wait_not_wait _ _ _ _ ev h
        rw [this] at hw
        exact absurd hw (by decide)

theorem iteration_wait (cfg : Config) (it : Iter) (w : World) :
    ∀ ev ∈ (iteration cfg it w).2.1, ev.is_wait = true →
      ev = Event.wait (min it.next_event w._scheduler_time_limit) it.next_event
        w._scheduler_time_limit := by
  intro ev hmem hw
  unfold iteration at hmem
  split at hmem
  · simp only [List.mem_singleton] at hmem
    subst hmem
    simp [Event.is_wait] at hw
  · dsimp only at hmem
    split at hmem
    · simp only [List.mem_singleton] at hmem
      subst hmem
      simp [Event.is_wait] at hw
    · simp only [List.mem_cons] at hmem
      rcases hmem with h | h
      · subst h; simp [Event.is_wait] at hw
      · have := after_clock_wait cfg it _ ev h hw
        exact this

theorem wait_loop_head_mem (w : World) (ne : Nat) (wt : WaitTry) (more : List WaitTry)
    (hs : _shall_end_scheduler w wt.stop = false) :
    Event.wait w._socket_events.deadline ne w._scheduler_time_limit
      ∈ (wait_loop w ne (wt :: more)).1 := by
  simp only [wait_loop, hs, Bool.false_eq_true, if_false, os_fd_event_get_deadline]
  split <;> simp

theorem after_clock_mem_of_wait_loop (cfg : Config) (it : Iter) (w : World) (ev : Event)
    (hstop : _shall_end_scheduler (run_actions it.timers w) it.stop = false)
    (h : ev ∈ (wait_loop (set_next_deadline it.next_event (run_actions it.timers w))
      it.next_event it.waits).1) :
    ev ∈ (after_clock cfg it w).2.1 := by
  unfold after_clock
  dsimp only
  rw [hstop]
  simp only [Bool.false_eq_true, if_false]
  split
  · next tr heq => rw [heq] at h; exact List.mem_cons_of_mem _ h
  · next tr heq => rw [heq] at h; exact List.mem_cons_of_mem _ h
  · next tr wt heq =>
    rw [heq] at h
    exact List.mem_cons_of_mem _ (List.mem_append_left _ h)

theorem handle_scheduling_wait (cfg : Config) (script : List Iter) :
    ∀ w : World, ∀ d ne lim : Nat,
      Event.wait d ne lim ∈ (_handle_scheduling cfg script w).trace → d = min ne lim := by
  induction script with
  | nil => intro w d ne lim h; simp [_handle_scheduling] at h
  | cons it rest ih =>
    intro w d ne lim h
    have hit := iteration_wait cfg it w (Event.wait d ne lim)
    simp only [_handle_scheduling] at h
    split at h
    · next heq =>
      rw [heq] at hit
      have := hit h rfl
      injection this with h1 h2 h3
      rw [h1, h2, h3]
    · next heq =>
      rw [heq] at hit
      have := hit h rfl
      injection this with h1 h2 h3
      rw [h1, h2, h3]
    · next heq =>
      rw [heq] at hit
      simp only [List.mem_append] at h
      rcases h with h | h
      · have := hit h rfl
        injection this with h1 h2 h3
        rw [h1, h2, h3]
      · exact ih _ d ne lim h

theorem handle_scheduling_cons (cfg : Config) (it : Iter) (rest : List Iter) (w : World) :
    _handle_scheduling cfg (it :: rest) w =
      match iteration cfg it w with
      | (.returned ret, tr, w1) => ⟨some ret, tr, w1⟩
      | (.exhausted, tr, w1) => ⟨none, tr, w1⟩
      | (.again, tr, w1) =>
        ⟨(_handle_scheduling cfg rest w1).ret, tr ++ (_handle_scheduling cfg rest w1).trace,
          (_handle_scheduling cfg rest w1).world⟩ := by
  simp only [_handle_scheduling]

/-- C3: in every run of `_handle_scheduling`, from every state (whatever
deadline the multiplexer held before) and for every value of the timer's next
event and of the shutdown deadline, each call of `os_fd_event_wait` finds the
multiplexer deadline equal to `min(oonf_timer_getNextEvent(), _scheduler_time_limit)`;
and an iteration that reaches the wait (clock refreshed to `t` below the
deadline, stop predicate false after the timers and before the wait) does call
`os_fd_event_wait` with that deadline. -/
theorem C3_wait_deadline_is_min (cfg : Config) (w : World) :
    (∀ (script : List Iter) (d ne lim : Nat),
      Event.wait d ne lim ∈ (_handle_scheduling cfg script w).trace → d = min ne lim) ∧
    (∀ (it : Iter) (rest : List Iter) (t : Nat) (wt : WaitTry) (more : List WaitTry),
      it.clock1 = some t → t < w._scheduler_time_limit →
      _shall_end_scheduler w it.stop = false →
      it.waits = wt :: more → _shall_end_scheduler w wt.stop = false →
      Event.wait (min it.next_event w._scheduler_time_limit) it.next_event
          w._scheduler_time_limit ∈ (_handle_scheduling cfg (it :: rest) w).trace) := by
  refine ⟨fun script d ne lim h => handle_scheduling_wait cfg script w d ne lim h, ?_⟩
  intro it rest t wt more hc hnow hstop hw hs
  have hmem : Event.wait (min it.next_event w._scheduler_time_limit) it.next_event
      w._scheduler_time_limit ∈ (iteration cfg it w).2.1 := by
    unfold iteration
    rw [hc]
    dsimp only
    rw [if_neg (Nat.not_le_of_lt hnow)]
    have hstop2 : _shall_end_scheduler (run_actions it.timers { w with now := t }) it.stop
        = false := by
      rw [shall_end_congr _ w it.stop (by rw [limit_run_actions])]
      exact hstop
    have hs3 : _shall_end_scheduler
        (set_next_deadline it.next_event (run_actions it.timers { w with now := t })) wt.stop
        = false := by
      rw [shall_end_congr _ w wt.stop (by rw [limit_set_next_deadline, limit_run_actions])]
      exact hs
    have hd := deadline_set_next_deadline it.next_event
      (run_actions it.timers { w with now := t })
    have hl := limit_set_next_deadline it.next_event
      (run_actions it.timers { w with now := t })
    rw [limit_run_actions] at hd hl
    have hh := wait_loop_head_mem
      (set_next_deadline it.next_event (run_actions it.timers { w with now := t }))
      it.next_event wt more hs3
    rw [hd, hl, ← hw] at hh
    exact List.mem_cons_of_mem _ (after_clock_mem_of_wait_loop cfg it _ _ hstop2 hh)
  rw [handle_scheduling_cons]
  split
  · next heq => rw [heq] at hmem; exact hmem
  · next heq => rw [heq] at hmem; exact hmem
  · next heq => rw [heq] at hmem; exact List.mem_append_left _ hmem

/-- C3 on an example: during the shutdown grace period (deadline 1500) with the
next timer at 2000 and a multiplexer deadline of 7 left from before, the wait is
called with deadline 1500. -/
theorem C3_wait_deadline_is_min_witness :
    Event.wait 1500 2000 1500 ∈
        (_handle_scheduling config0 [⟨some 1100, [], false, 2000, [wait_timeout], none⟩]
          world_grace).trace ∧
      1500 = min 2000 1500 :=
  ⟨(C3_wait_deadline_is_min config0 world_grace).2
      ⟨some 1100, [], false, 2000, [wait_timeout], none⟩ [] 1100 wait_timeout [] rfl
      (by decide) (by decide) rfl (by decide),
    (C3_wait_deadline_is_min config0 world_grace).1
      [⟨some 1100, [], false, 2000, [wait_timeout], none⟩] 1500 2000 1500 (by decide)⟩

/-! ## Results of an iteration -/

/-- C4, as stated, fails: with the shutdown deadline at 1500 and the clock
refreshed to 1500 at the start of the iteration, `_handle_scheduling` returns
-1, the value of the fatal faults, and not 0. -/
theorem C4_deadline_reached_returns_minus_one :
    (_handle_scheduling config0 [⟨some 1500, [], false, 2000, [wait_timeout], none⟩]
        world_grace).ret = some (-1) ∧
    (_handle_scheduling config0 [⟨none, [], false, 2000, [wait_timeout], none⟩]
        world_grace).ret = some (-1) ∧
    (_handle_scheduling config0 [⟨some 1500, [], false, 2000, [wait_timeout], none⟩]
        world_grace).ret ≠ some 0 := by
  decide

/-- C4, amended: when, at the start of an iteration, the refreshed current time
is greater than or equal to the shutdown deadline, `_handle_scheduling` stops at
once, before the timers are run and without waiting, and returns -1, the same
value it returns for fatal faults. -/
theorem C4_deadline_reached_stops_with_fault_value (cfg : Config) (it : Iter)
    (rest : List Iter) (w : World) (t : Nat)
    (hc : it.clock1 = some t) (hd : w._scheduler_time_limit ≤ t) :
    (_handle_scheduling cfg (it :: rest) w).ret = some (-1) ∧
    (_handle_scheduling cfg (it :: rest) w).trace = [Event.clock_update true] ∧
    (_handle_scheduling cfg (it :: rest) w).world = { w with now := t } := by
  have hit : iteration cfg it w
      = (Outcome.returned (-1), [Event.clock_update true], { w with now := t }) := by
    unfold iteration
    rw [hc]
    dsimp only
    rw [if_pos hd]
  rw [handle_scheduling_cons, hit]
  exact ⟨rfl, rfl, rfl⟩

/-- C4, amended, on an example: deadline 1500, clock refreshed to 1600. -/
theorem C4_deadline_reached_stops_with_fault_value_witness :
    (_handle_scheduling config0 [⟨some 1600, [], false, 2000, [wait_timeout], none⟩]
        world_grace).ret = some (-1) :=
  (C4_deadline_reached_stops_with_fault_value config0
    ⟨some 1600, [], false, 2000, [wait_timeout], none⟩ [] world_grace 1600 rfl
    (by decide)).1

/-- C7: if the clock refresh succeeds, the current time is below the shutdown
deadline, the stop predicate is false (after the timers and before every call of
the wait) and `os_fd_event_wait` returns 0, at its first call or after any number
`k` of calls interrupted by `EINTR`, then `_handle_scheduling` returns 0; it has
invoked no socket callback and does not wait again: the events of the run are the
clock refresh, the timer walk and the `k + 1` calls of the wait, the last of
which is the one that returned 0. -/
theorem C7_timeout_returns_success (cfg : Config) (it : Iter) (rest : List Iter)
    (w : World) (t : Nat) (fails : List WaitTry) (wt : WaitTry) (more : List WaitTry)
    (hc : it.clock1 = some t) (hnow : t < w._scheduler_time_limit)
    (hstop : _shall_end_scheduler w it.stop = false)
    (hw : it.waits = fails ++ wt :: more)
    (hf : ∀ f ∈ fails, f.n = -1 ∧ f.errno = EINTR ∧ _shall_end_scheduler w f.stop = false)
    (hs : _shall_end_scheduler w wt.stop = false)
    (hn : wt.n = 0) :
    (_handle_scheduling cfg (it :: rest) w).ret = some 0 ∧
    (_handle_scheduling cfg (it :: rest) w).trace =
      [Event.clock_update true, Event.timer_walk]
        ++ List.replicate (fails.length + 1)
            (Event.wait (min it.next_event w._scheduler_time_limit) it.next_event
              w._scheduler_time_limit) ∧
    ((_handle_scheduling cfg (it :: rest) w).trace.filter Event.is_wait).length
      = fails.length + 1 ∧
    ((_handle_scheduling cfg (it :: rest) w).trace.filter Event.is_process).length = 0 := by
  have hr : ¬ (wt.n = -1 ∧ wt.errno = EINTR) := by
    rw [hn]
    intro h
    exact absurd h.1 (by decide)
  have hit := iteration_reaches_result cfg it w t fails wt more hc hnow hstop hw hf hs hr
  have haw : after_wait cfg it.clock2 wt (wait_world it t w)
      = (Outcome.returned 0, [], wait_world it t w) := by
    unfold after_wait
    rw [if_pos hn]
  rw [haw] at hit
  rw [handle_scheduling_cons, hit]
  refine ⟨rfl, ?_, ?_, ?_⟩
  · simp
  · simp [List.filter_cons, Event.is_wait]
  · simp [List.filter_cons, Event.is_process]

/-- C7 on examples: no shutdown requested, clock at 10, next timer at 2000; the
first wait times out; and the wait times out after one interrupted wait. -/
theorem C7_timeout_returns_success_witness :
    (_handle_scheduling config0 [⟨some 10, [], false, 2000, [] ++ wait_timeout :: [], none⟩]
        world12).ret = some 0 ∧
    (_handle_scheduling config0
        [⟨some 10, [], false, 2000, [wait_eintr] ++ wait_timeout :: [], none⟩]
        world12).trace =
      [Event.clock_update true, Event.timer_walk]
        ++ List.replicate (1 + 1) (Event.wait (min 2000 UINT64_MAX) 2000 UINT64_MAX) :=
  ⟨(C7_timeout_returns_success config0
      ⟨some 10, [], false, 2000, [] ++ wait_timeout :: [], none⟩ []
      world12 10 [] wait_timeout [] rfl (by decide) (by decide) rfl (by decide) (by decide)
      rfl).1,
   (C7_timeout_returns_success config0
      ⟨some 10, [], false, 2000, [wait_eintr] ++ wait_timeout :: [], none⟩ []
      world12 10 [wait_eintr] wait_timeout [] rfl (by decide) (by decide) rfl (by decide)
      (by decide) rfl).2.1⟩

/-! ## The dispatch pass -/

theorem dispatch_invoked (cfg : Config) (slots : List Slot) :
    ∀ w : World,
      invoked_entries (dispatch cfg slots w).1
        = (slots.filter Slot.dispatched).map Slot.sock := by
  induction slots with
  | nil => intro w; rfl
  | cons s ss ih =>
    intro w
    simp only [dispatch]
    split
    · next hrw =>
      split
      · next hp =>
        have hd : s.dispatched = false := by simp [Slot.dispatched, hp]
        rw [List.filter_cons_of_neg (by simp [hd])]
        exact ih w
      · next acts hp =>
        have hd : s.dispatched = true := by simp [Slot.dispatched, hp, hrw]
        rw [List.filter_cons_of_pos hd]
        simp only [invoked_entries, List.map_cons]
        rw [List.filterMap_cons_some (by rfl), List.filterMap_append]
        have := ih (run_actions acts w)
        simp only [invoked_entries] at this
        rw [this]
        split <;> simp [Event.invoked]
    · next hrw =>
      have hd : s.dispatched = false := by simp [Slot.dispatched, hrw]
      rw [List.filter_cons_of_neg (by simp [hd])]
      exact ih w

theorem dispatch_process_mem (cfg : Config) (slots : List Slot) :
    ∀ (w : World) (e : Nat) (linked : Bool),
      Event.process e linked ∈ (dispatch cfg slots w).1 →
        ∃ s ∈ slots, s.sock = e ∧ s.process.isSome = true ∧ (s.is_read || s.is_write) = true := by
  induction slots with
  | nil => intro w e linked h; simp [dispatch] at h
  | cons s ss ih =>
    intro w e linked h
    simp only [dispatch] at h
    split at h
    · next hrw =>
      split at h
      · obtain ⟨s1, hs1, hh⟩ := ih w e linked h
        exact ⟨s1, List.mem_cons_of_mem _ hs1, hh⟩
      · next acts hp =>
        simp only [List.mem_cons, List.mem_append] at h
        rcases h with h | h | h
        · injection h with h1 h2
          exact ⟨s, List.mem_cons_self _ _, h1.symm, by simp [hp], hrw⟩
        · split at h
          · simp at h
          · simp at h
        · obtain ⟨s1, hs1, hh⟩ := ih _ e linked h
          exact ⟨s1, List.mem_cons_of_mem _ hs1, hh⟩
    · obtain ⟨s1, hs1, hh⟩ := ih w e linked h
      exact ⟨s1, List.mem_cons_of_mem _ hs1, hh⟩

theorem dispatch_no_fault_warning (cfg : Config) (slots : List Slot) :
    ∀ (w : World) (errno : Int) (delivered : Bool),
      Event.warn_select errno delivered ∉ (dispatch cfg slots w).1 := by
  induction slots with
  | nil => intro w errno delivered h; simp [dispatch] at h
  | cons s ss ih =>
    intro w errno delivered h
    simp only [dispatch] at h
    split at h
    · split at h
      · exact ih w errno delivered h
      · simp only [List.mem_cons, List.mem_append] at h
        rcases h with h | h | h
        · exact Event.noConfusion h
        · split at h
          · simp at h
          · simp at h
        · exact ih _ errno delivered h
    · exact ih w errno delivered h

theorem after_wait_dispatch (cfg : Config) (t2 : Nat) (wt : WaitTry) (w : World)
    (hn : 0 < wt.n) :
    after_wait cfg (some t2) wt w =
      (Outcome.again,
        Event.clock_update true :: (dispatch cfg wt.batch { w with now := t2 }).1,
        (dispatch cfg wt.batch { w with now := t2 }).2) := by
  unfold after_wait
  rw [if_neg (by omega), if_neg (by omega)]
  rfl

theorem filter_is_wait_dispatch (cfg : Config) (slots : List Slot) (w : World) :
    (dispatch cfg slots w).1.filter Event.is_wait = [] := by
  rw [List.filter_eq_nil_iff]
  intro ev hev
  rw [dispatch_not_wait cfg slots w ev hev]
  decide

/-- C5, as stated, fails: the wait reports entries 1 and 2, both registered; the
callback of entry 1 calls `oonf_socket_remove` on entry 2; the loop then still
invokes the callback of entry 2, which is no longer linked in the registry. -/
theorem C5_removed_entry_is_still_invoked :
    (_handle_scheduling config0 [⟨some 10, [], false, 2000, [wait_two], some 12⟩]
        world12).trace.filter Event.is_process
      = [Event.process 1 true, Event.process 2 false] := by
  decide

/-- C5, amended: during one dispatch pass a callback is invoked only for a
triggered event that reports read or write readiness and whose entry has its
callback present when the loop reaches it; registration is not checked. The
pass visits each triggered event once, so an entry is invoked at most as often
as the batch reports it: an entry reported once that removes itself is not
invoked again in that pass. -/
theorem C5_invoked_only_with_callback (cfg : Config) (wt : WaitTry) (w : World) (t2 : Nat)
    (hn : 0 < wt.n) :
    (∀ (e : Nat) (linked : Bool),
      Event.process e linked ∈ (after_wait cfg (some t2) wt w).2.1 →
        ∃ s ∈ wt.batch, s.sock = e ∧ s.process.isSome = true ∧
          (s.is_read || s.is_write) = true) ∧
    (∀ e : Nat,
      (invoked_entries (after_wait cfg (some t2) wt w).2.1).count e
        ≤ (wt.batch.map Slot.sock).count e) := by
  rw [after_wait_dispatch cfg t2 wt w hn]
  constructor
  · intro e linked h
    simp only [List.mem_cons] at h
    rcases h with h | h
    · exact Event.noConfusion h
    · exact dispatch_process_mem cfg wt.batch _ e linked h
  · intro e
    have hinv : invoked_entries
        (Event.clock_update true :: (dispatch cfg wt.batch { w with now := t2 }).1)
        = (wt.batch.filter Slot.dispatched).map Slot.sock := by
      rw [← dispatch_invoked cfg wt.batch { w with now := t2 }]
      rfl
    rw [hinv]
    exact List.Sublist.count_le ((List.filter_sublist wt.batch).map Slot.sock) e

/-- C5, amended, on an example: entry 1 is reported once and its callback
removes entry 1; it is invoked once in the pass. -/
theorem C5_invoked_only_with_callback_witness :
    (invoked_entries (after_wait config0 (some 12) wait_self world12).2.1).count 1
      ≤ (wait_self.batch.map Slot.sock).count 1 :=
  (C5_invoked_only_with_callback config0 wait_self world12 12 (by decide)).2 1

/-- C6, as stated, fails: the wait reports entry 1, which has a callback, with
neither the read nor the write flag; the pass invokes no callback, while the
reported sequence without the entries that lack a callback is `[1]`. -/
theorem C6_event_without_readiness_is_skipped :
    invoked_entries (after_wait config0 (some 12) wait_hup world12).2.1 = [] ∧
    (wait_hup.batch.filter (fun s => s.process.isSome)).map Slot.sock = [1] := by
  decide

/-- C6, amended: for every batch of `n > 0` triggered descriptors reported after
a wait, the sequence of callbacks invoked in the pass is exactly the reported
sequence restricted to the events that report read or write readiness and whose
entry has a callback: each of these is invoked exactly once, in the order
reported; events with neither flag and entries without a callback are skipped. -/
theorem C6_invoked_sequence (cfg : Config) (wt : WaitTry) (w : World) (t2 : Nat)
    (hn : 0 < wt.n) :
    invoked_entries (after_wait cfg (some t2) wt w).2.1
      = (wt.batch.filter (fun s => (s.is_read || s.is_write) && s.process.isSome)).map
          Slot.sock := by
  rw [after_wait_dispatch cfg t2 wt w hn]
  exact dispatch_invoked cfg wt.batch { w with now := t2 }

/-- C6, amended, on an example: entries 1 and 2 are reported, one readable and
one writable, both with a callback; both are invoked, in that order. -/
theorem C6_invoked_sequence_witness :
    invoked_entries (after_wait config0 (some 12) wait_two world12).2.1 = [1, 2] :=
  (C6_invoked_sequence config0 wait_two world12 12 (by decide)).trans (by decide)

/-! ## Interrupted and failed waits -/

/-- C8, as stated, fails: the wait returns `n = 1` at once (`k = 0`) with the
stop predicate false, but the clock refresh after the wake-up fails; the loop
returns -1 and no dispatch pass takes place. -/
theorem C8_clock_fault_after_wait :
    (_handle_scheduling config0 [⟨some 10, [], false, 2000, [wait_self], none⟩]
        world12).ret = some (-1) ∧
    invoked_entries
      (_handle_scheduling config0 [⟨some 10, [], false, 2000, [wait_self], none⟩]
        world12).trace = [] := by
  decide

/-- C8, amended: for every `k >= 0`, if `os_fd_event_wait` fails `k` times in a
row with `EINTR` and then returns `n > 0`, while the stop predicate stays false,
and the clock refresh after the wake-up succeeds, then the iteration ends
without a return (the loop goes on with the next iteration), the wait was called
exactly `k + 1` times, no wait-failure warning is issued, and exactly one
dispatch pass over the `n` triggered descriptors takes place, in which each
triggered event is dispatched at most once. -/
theorem C8_interrupted_wait_is_retried (cfg : Config) (it : Iter) (rest : List Iter)
    (w : World) (t t2 : Nat) (fails : List WaitTry) (wt : WaitTry) (more : List WaitTry)
    (hc : it.clock1 = some t) (hnow : t < w._scheduler_time_limit)
    (hstop : _shall_end_scheduler w it.stop = false)
    (hw : it.waits = fails ++ wt :: more)
    (hf : ∀ f ∈ fails, f.n = -1 ∧ f.errno = EINTR ∧ _shall_end_scheduler w f.stop = false)
    (hs : _shall_end_scheduler w wt.stop = false)
    (hn : 0 < wt.n) (hc2 : it.clock2 = some t2) :
    iteration cfg it w =
      (Outcome.again,
        [Event.clock_update true, Event.timer_walk]
          ++ List.replicate (fails.length + 1)
              (Event.wait (min it.next_event w._scheduler_time_limit) it.next_event
                w._scheduler_time_limit)
          ++ Event.clock_update true
            :: (dispatch cfg wt.batch { wait_world it t w with now := t2 }).1,
        (dispatch cfg wt.batch { wait_world it t w with now := t2 }).2) ∧
    (_handle_scheduling cfg (it :: rest) w).ret
      = (_handle_scheduling cfg rest
          (dispatch cfg wt.batch { wait_world it t w with now := t2 }).2).ret ∧
    (_handle_scheduling cfg (it :: rest) w).trace
      = (iteration cfg it w).2.1
        ++ (_handle_scheduling cfg rest
            (dispatch cfg wt.batch { wait_world it t w with now := t2 }).2).trace ∧
    ((iteration cfg it w).2.1.filter Event.is_wait).length = fails.length + 1 ∧
    (∀ (errno : Int) (delivered : Bool),
      Event.warn_select errno delivered ∉ (iteration cfg it w).2.1) ∧
    List.Sublist (invoked_entries (iteration cfg it w).2.1) (wt.batch.map Slot.sock) := by
  have hr : ¬ (wt.n = -1 ∧ wt.errno = EINTR) := by
    intro h
    omega
  have hit := iteration_reaches_result cfg it w t fails wt more hc hnow hstop hw hf hs hr
  rw [hc2, after_wait_dispatch cfg t2 wt _ hn] at hit
  dsimp only at hit
  refine ⟨hit, ?_, ?_, ?_, ?_, ?_⟩
  · rw [handle_scheduling_cons, hit]
  · rw [handle_scheduling_cons, hit]
  · rw [hit]
    simp [List.filter_cons, Event.is_wait, filter_is_wait_dispatch]
  · intro errno delivered hmem
    rw [hit] at hmem
    simp only [List.mem_append, List.mem_cons, List.mem_replicate, List.mem_singleton,
      List.not_mem_nil, or_false] at hmem
    rcases hmem with ((h | h) | h) | h | h
    · exact Event.noConfusion h
    · exact Event.noConfusion h
    · exact Event.noConfusion h.2
    · exact Event.noConfusion h
    · exact dispatch_no_fault_warning cfg wt.batch _ errno delivered h
  · rw [hit]
    have hinv : invoked_entries
        ([Event.clock_update true, Event.timer_walk]
          ++ List.replicate (fails.length + 1)
              (Event.wait (min it.next_event w._scheduler_time_limit) it.next_event
                w._scheduler_time_limit)
          ++ Event.clock_update true
            :: (dispatch cfg wt.batch { wait_world it t w with now := t2 }).1)
        = (wt.batch.filter Slot.dispatched).map Slot.sock := by
      rw [← dispatch_invoked cfg wt.batch { wait_world it t w with now := t2 }]
      simp [invoked_entries, List.filterMap_append, List.filterMap_replicate_of_none,
        Event.invoked]
    rw [hinv]
    exact (List.filter_sublist wt.batch).map Slot.sock

/-- C8, amended, on the spec's case `k = 3`: three interrupted waits, then a
wait that reports entries 1 and 2. -/
theorem C8_interrupted_wait_is_retried_witness :
    ((iteration config0
        ⟨some 10, [], false, 2000, [wait_eintr, wait_eintr, wait_eintr] ++ wait_two :: [],
          some 12⟩
        world12).2.1.filter Event.is_wait).length = 3 + 1 :=
  (C8_interrupted_wait_is_retried config0
    ⟨some 10, [], false, 2000, [wait_eintr, wait_eintr, wait_eintr] ++ wait_two :: [],
      some 12⟩
    [] world12 10 12 [wait_eintr, wait_eintr, wait_eintr] wait_two [] rfl (by decide)
    (by decide) rfl (by decide) (by decide) (by decide) rfl).2.2.2.1

/-- C9: `_handle_scheduling` stops with -1 (a) when the clock refresh at the
start of an iteration fails, before the timers are run; (b) when the clock
refresh after the wake-up of a wait that returned `n > 0` fails; (c) when
`os_fd_event_wait` returns a negative value with an errno other than `EINTR`.
In each case the events of the run end with the fault and no socket callback is
invoked; in case (c) exactly one warning is issued through `OONF_WARN` (it is
passed on to `oonf_log` when `log_global_mask` enables warnings for the socket
source) and the failed wait is the last call of the wait. -/
theorem C9_faults_stop_with_minus_one (cfg : Config) (it : Iter) (rest : List Iter)
    (w : World) :
    (it.clock1 = none →
      (_handle_scheduling cfg (it :: rest) w).ret = some (-1) ∧
      (_handle_scheduling cfg (it :: rest) w).trace = [Event.clock_update false]) ∧
    (∀ (t : Nat) (fails : List WaitTry) (wt : WaitTry) (more : List WaitTry),
      it.clock1 = some t → t < w._scheduler_time_limit →
      _shall_end_scheduler w it.stop = false →
      it.waits = fails ++ wt :: more →
      (∀ f ∈ fails, f.n = -1 ∧ f.errno = EINTR ∧ _shall_end_scheduler w f.stop = false) →
      _shall_end_scheduler w wt.stop = false →
      (0 < wt.n → it.clock2 = none →
        (_handle_scheduling cfg (it :: rest) w).ret = some (-1) ∧
        (_handle_scheduling cfg (it :: rest) w).trace =
          [Event.clock_update true, Event.timer_walk]
            ++ List.replicate (fails.length + 1)
                (Event.wait (min it.next_event w._scheduler_time_limit) it.next_event
                  w._scheduler_time_limit)
            ++ [Event.clock_update false]) ∧
      (wt.n < 0 → wt.errno ≠ EINTR →
        (_handle_scheduling cfg (it :: rest) w).ret = some (-1) ∧
        (_handle_scheduling cfg (it :: rest) w).trace =
          [Event.clock_update true, Event.timer_walk]
            ++ List.replicate (fails.length + 1)
                (Event.wait (min it.next_event w._scheduler_time_limit) it.next_event
                  w._scheduler_time_limit)
            ++ [Event.warn_select wt.errno
                  (oonf_log_mask_test w.log_global_mask cfg.LOG_SOCKET LOG_SEVERITY_WARN)] ∧
        ((_handle_scheduling cfg (it :: rest) w).trace.filter Event.is_warn).length = 1 ∧
        ((_handle_scheduling cfg (it :: rest) w).trace.filter Event.is_process).length
          = 0)) := by
  constructor
  · intro hc
    have hit : iteration cfg it w = (Outcome.returned (-1), [Event.clock_update false], w) := by
      unfold iteration
      rw [hc]
    rw [handle_scheduling_cons, hit]
    exact ⟨rfl, rfl⟩
  · intro t fails wt more hc hnow hstop hw hf hs
    constructor
    · intro hn hc2
      have hr : ¬ (wt.n = -1 ∧ wt.errno = EINTR) := by
        intro h
        omega
      have hit := iteration_reaches_result cfg it w t fails wt more hc hnow hstop hw hf hs hr
      have haw : after_wait cfg it.clock2 wt (wait_world it t w)
          = (Outcome.returned (-1), [Event.clock_update false], wait_world it t w) := by
        unfold after_wait
        rw [if_neg (by omega), if_neg (by omega), hc2]
      rw [haw] at hit
      rw [handle_scheduling_cons, hit]
      exact ⟨rfl, rfl⟩
    · intro hn herr
      have hr : ¬ (wt.n = -1 ∧ wt.errno = EINTR) := fun h => herr h.2
      have hit := iteration_reaches_result cfg it w t fails wt more hc hnow hstop hw hf hs hr
      have hmask : (wait_world it t w).log_global_mask = w.log_global_mask := by
        simp only [wait_world, mask_set_next_deadline, mask_run_actions]
      have haw : after_wait cfg it.clock2 wt (wait_world it t w)
          = (Outcome.returned (-1),
              [Event.warn_select wt.errno
                (oonf_log_mask_test w.log_global_mask cfg.LOG_SOCKET LOG_SEVERITY_WARN)],
              wait_world it t w) := by
        unfold after_wait
        rw [if_neg (by omega), if_pos hn]
        simp only [OONF_WARN, hmask]
      rw [haw] at hit
      rw [handle_scheduling_cons, hit]
      refine ⟨rfl, rfl, ?_, ?_⟩
      · simp [List.filter_cons, List.filter_append, Event.is_warn]
      · simp [List.filter_cons, List.filter_append, Event.is_process]

/-- C9 on examples: a failed first clock refresh; a failed clock refresh after a
wait that reported two events; a wait that fails with `EBADF` after one
interrupted wait. -/
theorem C9_faults_stop_with_minus_one_witness :
    (_handle_scheduling config0 [⟨none, [], false, 2000, [wait_two], some 12⟩]
        world12).ret = some (-1) ∧
    (_handle_scheduling config0 [⟨some 10, [], false, 2000, [] ++ wait_two :: [], none⟩]
        world12).ret = some (-1) ∧
    (_handle_scheduling config0
        [⟨some 10, [], false, 2000, [wait_eintr] ++ wait_error :: [wait_two], some 12⟩]
        world12).trace =
      [Event.clock_update true, Event.timer_walk]
        ++ List.replicate (1 + 1) (Event.wait (min 2000 UINT64_MAX) 2000 UINT64_MAX)
        ++ [Event.warn_select 9 true] :=
  ⟨((C9_faults_stop_with_minus_one config0 ⟨none, [], false, 2000, [wait_two], some 12⟩ []
      world12).1 rfl).1,
   (((C9_faults_stop_with_minus_one config0
      ⟨some 10, [], false, 2000, [] ++ wait_two :: [], none⟩ [] world12).2
      10 [] wait_two [] rfl (by decide) (by decide) rfl (by decide) (by decide)).1
      (by decide) rfl).1,
   (((C9_faults_stop_with_minus_one config0
      ⟨some 10, [], false, 2000, [wait_eintr] ++ wait_error :: [wait_two], some 12⟩ []
      world12).2
      10 [wait_eintr] wait_error [wait_two] rfl (by decide) (by decide) rfl (by decide)
      (by decide)).2 (by decide) (by decide)).2.1⟩

/-! ## Logging masks -/

theorem getD_set_self (mask : List Nat) (src v : Nat) (h : src < mask.length) :
    (mask.set src v).getD src 0 = v := by
  simp [List.getD_eq_getElem?_getD, List.getElem?_set, h]

theorem getD_set_ne (mask : List Nat) (src src2 v : Nat) (h : src ≠ src2) :
    (mask.set src v).getD src2 0 = mask.getD src2 0 := by
  simp [List.getD_eq_getElem?_getD, List.getElem?_set_ne h]

theorem getD_lt_of_is_log_mask (mask : List Nat) (src : Nat) (hm : is_log_mask mask) :
    mask.getD src 0 < 256 := by
  rw [List.getD_eq_getElem?_getD]
  cases h : mask[src]? with
  | none => simp
  | some x => exact hm.2 x (List.getElem?_mem h)

set_option maxRecDepth 100000 in
theorem mask_byte_facts :
    ∀ x < 256, ∀ sev ∈ [1, 2, 4], ∀ sev2 ∈ [1, 2, 4],
      (Nat.land (Nat.lor x sev % 256) sev != 0) = true ∧
      (Nat.land (Nat.land x (2 ^ 32 - 1 - sev) % 256) sev != 0) = false ∧
      (sev2 ≠ sev →
        (Nat.land (Nat.lor x sev % 256) sev2 != 0) = (Nat.land x sev2 != 0)) ∧
      (sev2 ≠ sev →
        (Nat.land (Nat.land x (2 ^ 32 - 1 - sev) % 256) sev2 != 0)
          = (Nat.land x sev2 != 0)) := by
  decide

theorem is_log_severity_mem (sev : Nat) (h : is_log_severity sev) : sev ∈ [1, 2, 4] := by
  rcases h with h | h | h <;> subst h <;> decide

/-- C14: for every logging mask of 64 byte entries, every source `src < 64` and
every severity `sev` among `DEBUG`, `INFO`, `WARN`: after
`oonf_log_mask_set(mask, src, sev)` the test `oonf_log_mask_test(mask, src, sev)`
is true, after `oonf_log_mask_reset(mask, src, sev)` it is false, and both
operations leave the test unchanged for every other pair of a source below 64
and a severity; after `oonf_log_mask_clear(mask)` the test is true for `WARN`
and false for `DEBUG` and `INFO` on every source. -/
theorem C14_log_mask_set_reset_clear (mask : List Nat) (src sev : Nat)
    (hm : is_log_mask mask) (hsrc : src < LOG_MAXIMUM_SOURCES) (hsev : is_log_severity sev) :
    oonf_log_mask_test (oonf_log_mask_set mask src sev) src sev = true ∧
    oonf_log_mask_test (oonf_log_mask_reset mask src sev) src sev = false ∧
    (∀ src2 sev2 : Nat, src2 < LOG_MAXIMUM_SOURCES → is_log_severity sev2 →
      (src2, sev2) ≠ (src, sev) →
      oonf_log_mask_test (oonf_log_mask_set mask src sev) src2 sev2
        = oonf_log_mask_test mask src2 sev2 ∧
      oonf_log_mask_test (oonf_log_mask_reset mask src sev) src2 sev2
        = oonf_log_mask_test mask src2 sev2) ∧
    (∀ src2 : Nat, src2 < LOG_MAXIMUM_SOURCES →
      oonf_log_mask_test (oonf_log_mask_clear mask) src2 LOG_SEVERITY_WARN = true ∧
      oonf_log_mask_test (oonf_log_mask_clear mask) src2 LOG_SEVERITY_DEBUG = false ∧
      oonf_log_mask_test (oonf_log_mask_clear mask) src2 LOG_SEVERITY_INFO = false) := by
  have hlen : src < mask.length := by rw [hm.1]; exact hsrc
  have hx := getD_lt_of_is_log_mask mask src hm
  have hs := is_log_severity_mem sev hsev
  refine ⟨?_, ?_, ?_, ?_⟩
  · simp only [oonf_log_mask_test, oonf_log_mask_set, getD_set_self mask src _ hlen]
    exact (mask_byte_facts _ hx sev hs sev hs).1
  · simp only [oonf_log_mask_test, oonf_log_mask_reset, getD_set_self mask src _ hlen]
    exact (mask_byte_facts _ hx sev hs sev hs).2.1
  · intro src2 sev2 _ hsev2 hne
    have hs2 := is_log_severity_mem sev2 hsev2
    by_cases hsrc2 : src = src2
    · subst hsrc2
      have hne2 : sev2 ≠ sev := fun h => hne (by rw [h])
      simp only [oonf_log_mask_test, oonf_log_mask_set, oonf_log_mask_reset,
        getD_set_self mask src _ hlen]
      exact ⟨(mask_byte_facts _ hx sev hs sev2 hs2).2.2.1 hne2,
        (mask_byte_facts _ hx sev hs sev2 hs2).2.2.2 hne2⟩
    · simp only [oonf_log_mask_test, oonf_log_mask_set, oonf_log_mask_reset,
        getD_set_ne mask src src2 _ hsrc2, and_self]
  · intro src2 h2
    have hget : (oonf_log_mask_clear mask).getD src2 0 = LOG_SEVERITY_WARN := by
      simp [oonf_log_mask_clear, List.getD_eq_getElem?_getD, List.getElem?_replicate, h2]
    simp only [oonf_log_mask_test, hget]
    decide

/-- C14 on an example: on the cleared mask, source 14, severity `DEBUG`: set
then test, reset then test, and the `WARN` bit of source 14 and the `DEBUG` bit
of source 15 keep their value. -/
theorem C14_log_mask_set_reset_clear_witness :
    oonf_log_mask_test (oonf_log_mask_set (oonf_log_mask_clear []) 14 LOG_SEVERITY_DEBUG) 14
        LOG_SEVERITY_DEBUG = true ∧
    oonf_log_mask_test (oonf_log_mask_reset (oonf_log_mask_clear []) 14 LOG_SEVERITY_DEBUG) 14
        LOG_SEVERITY_DEBUG = false ∧
    oonf_log_mask_test (oonf_log_mask_reset (oonf_log_mask_clear []) 14 LOG_SEVERITY_DEBUG) 14
        LOG_SEVERITY_WARN = true ∧
    oonf_log_mask_test (oonf_log_mask_set (oonf_log_mask_clear []) 14 LOG_SEVERITY_DEBUG) 15
        LOG_SEVERITY_DEBUG = false :=
  ⟨(C14_log_mask_set_reset_clear (oonf_log_mask_clear []) 14 LOG_SEVERITY_DEBUG
      ⟨by decide, by decide⟩ (by decide) (Or.inl rfl)).1,
   (C14_log_mask_set_reset_clear (oonf_log_mask_clear []) 14 LOG_SEVERITY_DEBUG
      ⟨by decide, by decide⟩ (by decide) (Or.inl rfl)).2.1,
   (((C14_log_mask_set_reset_clear (oonf_log_mask_clear []) 14 LOG_SEVERITY_DEBUG
      ⟨by decide, by decide⟩ (by decide) (Or.inl rfl)).2.2.1 14 LOG_SEVERITY_WARN (by decide)
      (Or.inr (Or.inr rfl)) (by decide)).2).trans (by decide),
   (((C14_log_mask_set_reset_clear (oonf_log_mask_clear []) 14 LOG_SEVERITY_DEBUG
      ⟨by decide, by decide⟩ (by decide) (Or.inl rfl)).2.2.1 15 LOG_SEVERITY_DEBUG (by decide)
      (Or.inl rfl) (by decide)).1).trans (by decide)⟩

/-! ## The stop predicate -/

theorem wait_loop_ended (w : World) (ne : Nat) (fails : List WaitTry) (wt : WaitTry)
    (more : List WaitTry)
    (hf : ∀ f ∈ fails, f.n = -1 ∧ f.errno = EINTR ∧ _shall_end_scheduler w f.stop = false)
    (hs : _shall_end_scheduler w wt.stop = true) :
    wait_loop w ne (fails ++ wt :: more) =
      (List.replicate fails.length
          (Event.wait w._socket_events.deadline ne w._scheduler_time_limit),
        WaitOutcome.ended) := by
  induction fails with
  | nil => simp only [List.nil_append, wait_loop, hs, if_true, List.length_nil,
      List.replicate_zero]
  | cons f fs ih =>
    have hf1 := hf f (List.mem_cons_self _ _)
    have ih1 := ih (fun x hx => hf x (List.mem_cons_of_mem _ hx))
    show wait_loop w ne (f :: (fs ++ wt :: more)) = _
    simp only [wait_loop, hf1.2.2, Bool.false_eq_true, if_false, hf1.1,
      hf1.2.1, and_self, if_true, ih1, os_fd_event_get_deadline, List.length_cons,
      List.replicate_succ]

/-- C13: `_shall_end_scheduler` is true exactly when the shutdown deadline is the
no-deadline sentinel (shutdown not requested) and `oonf_main_shall_stop_scheduler`
holds; with a deadline other than the sentinel it is false whatever the external
condition says, as it is after a shutdown request made at a clock time below
`2^64 - 501` (where `now + 500` does not wrap onto the sentinel). When it is true
after the timers have run, `_handle_scheduling` returns 0 without calling the
wait; when it is true before the first call of the wait or before a retry after
`k` interrupted waits, `_handle_scheduling` returns 0 without calling the wait
again (the wait was called `k` times). -/
theorem C13_stop_predicate (cfg : Config) (it : Iter) (rest : List Iter) (w : World)
    (stop : Bool) :
    (_shall_end_scheduler w stop = true ↔
      w._scheduler_time_limit = UINT64_MAX ∧ stop = true) ∧
    (w._scheduler_time_limit ≠ UINT64_MAX → _shall_end_scheduler w stop = false) ∧
    (w.now + 500 < UINT64_MAX → _shall_end_scheduler (_initiate_shutdown w) stop = false) ∧
    (∀ t : Nat, it.clock1 = some t → t < w._scheduler_time_limit →
      _shall_end_scheduler w it.stop = true →
      (_handle_scheduling cfg (it :: rest) w).ret = some 0 ∧
      (_handle_scheduling cfg (it :: rest) w).trace
        = [Event.clock_update true, Event.timer_walk]) ∧
    (∀ (t : Nat) (fails : List WaitTry) (wt : WaitTry) (more : List WaitTry),
      it.clock1 = some t → t < w._scheduler_time_limit →
      _shall_end_scheduler w it.stop = false →
      it.waits = fails ++ wt :: more →
      (∀ f ∈ fails, f.n = -1 ∧ f.errno = EINTR ∧ _shall_end_scheduler w f.stop = false) →
      _shall_end_scheduler w wt.stop = true →
      (_handle_scheduling cfg (it :: rest) w).ret = some 0 ∧
      (_handle_scheduling cfg (it :: rest) w).trace
        = [Event.clock_update true, Event.timer_walk]
          ++ List.replicate fails.length
              (Event.wait (min it.next_event w._scheduler_time_limit) it.next_event
                w._scheduler_time_limit)) := by
  refine ⟨?_, ?_, ?_, ?_, ?_⟩
  · simp [_shall_end_scheduler]
  · intro h
    simp [_shall_end_scheduler, h]
  · intro h
    have hlt : w.now + 500 < 2 ^ 64 := by
      simp only [UINT64_MAX] at h
      omega
    have hne : (w.now + 500) % 2 ^ 64 ≠ UINT64_MAX := by
      rw [Nat.mod_eq_of_lt hlt]
      exact Nat.ne_of_lt h
    have hb : ((w.now + 500) % 2 ^ 64 == UINT64_MAX) = false := by
      rw [beq_eq_false_iff_ne]
      exact hne
    simp only [_shall_end_scheduler, _initiate_shutdown, oonf_clock_get_absolute, hb,
      Bool.false_and]
  · intro t hc hnow hstop
    have hstop2 : _shall_end_scheduler (run_actions it.timers { w with now := t }) it.stop
        = true := by
      rw [shall_end_congr _ w it.stop (by rw [limit_run_actions])]
      exact hstop
    have hit : iteration cfg it w
        = (Outcome.returned 0, [Event.clock_update true, Event.timer_walk],
            run_actions it.timers { w with now := t }) := by
      unfold iteration
      rw [hc]
      dsimp only
      rw [if_neg (Nat.not_le_of_lt hnow)]
      unfold after_clock
      dsimp only
      rw [hstop2]
      simp only [if_true]
    rw [handle_scheduling_cons, hit]
    exact ⟨rfl, rfl⟩
  · intro t fails wt more hc hnow hstop hw hf hs
    have hstop2 : _shall_end_scheduler (run_actions it.timers { w with now := t }) it.stop
        = false := by
      rw [shall_end_congr _ w it.stop (by rw [limit_run_actions])]
      exact hstop
    have hf3 : ∀ f ∈ fails, f.n = -1 ∧ f.errno = EINTR ∧
        _shall_end_scheduler (wait_world it t w) f.stop = false := by
      intro f hfm
      rw [shall_end_congr _ w f.stop (limit_wait_world it t w)]
      exact hf f hfm
    have hs3 : _shall_end_scheduler (wait_world it t w) wt.stop = true := by
      rw [shall_end_congr _ w wt.stop (limit_wait_world it t w)]
      exact hs
    have hloop := wait_loop_ended (wait_world it t w) it.next_event fails wt more hf3 hs3
    rw [deadline_wait_world, limit_wait_world] at hloop
    have hit : iteration cfg it w
        = (Outcome.returned 0,
            [Event.clock_update true, Event.timer_walk]
              ++ List.replicate fails.length
                (Event.wait (min it.next_event w._scheduler_time_limit) it.next_event
                  w._scheduler_time_limit),
            wait_world it t w) := by
      unfold iteration
      rw [hc]
      dsimp only
      rw [if_neg (Nat.not_le_of_lt hnow)]
      unfold after_clock
      dsimp only
      rw [hstop2]
      simp only [Bool.false_eq_true, if_false]
      rw [hw]
      unfold wait_world at hloop
      rw [hloop]
      simp [wait_world]
    rw [handle_scheduling_cons, hit]
    exact ⟨rfl, rfl⟩

/-- C13 on examples: no shutdown requested and the external stop condition true
after the timers; the external stop condition true before the retry that follows
one interrupted wait; a shutdown request at time 1000. -/
theorem C13_stop_predicate_witness :
    (_handle_scheduling config0 [⟨some 10, [], true, 2000, [wait_two], some 12⟩]
        world12).trace = [Event.clock_update true, Event.timer_walk] ∧
    (_handle_scheduling config0
        [⟨some 10, [], false, 2000,
          [wait_eintr] ++ (⟨true, 2, 0, fun _ => slot_idle⟩ : WaitTry) :: [], some 12⟩]
        world12).ret = some 0 ∧
    _shall_end_scheduler (_initiate_shutdown { world12 with now := 1000 }) true = false :=
  ⟨((C13_stop_predicate config0 ⟨some 10, [], true, 2000, [wait_two], some 12⟩ []
      world12 true).2.2.2.1 10 rfl (by decide) (by decide)).2,
   ((C13_stop_predicate config0
      ⟨some 10, [], false, 2000,
        [wait_eintr] ++ (⟨true, 2, 0, fun _ => slot_idle⟩ : WaitTry) :: [], some 12⟩ []
      world12 true).2.2.2.2 10 [wait_eintr] ⟨true, 2, 0, fun _ => slot_idle⟩ [] rfl
      (by decide) (by decide) rfl (by decide) (by decide)).1,
   (C13_stop_predicate config0 ⟨none, [], false, 0, [], none⟩ []
      { world12 with now := 1000 } true).2.2.1 (by decide)⟩

/-! ## Slice warnings -/

theorem dispatch_cons_invoked (cfg : Config) (s : Slot) (ss : List Slot) (w : World)
    (acts : List Action) (hrw : (s.is_read || s.is_write) = true)
    (hp : s.process = some acts) :
    dispatch cfg (s :: ss) w =
      (Event.process s.sock (list_is_node_added w._socket_head s.sock)
        :: ((if s.elapsed > cfg.OONF_TIMER_SLICE
              then [Event.warn_slice s.sock s.elapsed (OONF_WARN cfg (run_actions acts w))]
              else [])
            ++ (dispatch cfg ss (run_actions acts w)).1),
        (dispatch cfg ss (run_actions acts w)).2) := by
  simp only [dispatch, hrw, hp, if_true, Slot.elapsed]

theorem dispatch_cons_skipped (cfg : Config) (s : Slot) (ss : List Slot) (w : World)
    (h : s.dispatched = false) :
    dispatch cfg (s :: ss) w = dispatch cfg ss w := by
  simp only [dispatch]
  split
  · next hrw =>
    split
    · rfl
    · next acts hp => simp [Slot.dispatched, hrw, hp] at h
  · rfl

theorem dispatch_slice_warnings (cfg : Config) (slots : List Slot) :
    ∀ w : World,
      (dispatch cfg slots w).1.filterMap Event.slice_warning
        = (slots.filter
            (fun x => x.dispatched && decide (x.elapsed > cfg.OONF_TIMER_SLICE))).map
            (fun x => (x.sock, x.elapsed)) := by
  induction slots with
  | nil => intro w; rfl
  | cons s ss ih =>
    intro w
    cases hd : s.dispatched with
    | false =>
      rw [dispatch_cons_skipped cfg s ss w hd, List.filter_cons_of_neg (by simp [hd])]
      exact ih w
    | true =>
      have hrw : (s.is_read || s.is_write) = true := by
        simp only [Slot.dispatched, Bool.and_eq_true] at hd
        exact hd.1
      obtain ⟨acts, hp⟩ : ∃ acts, s.process = some acts := by
        simp only [Slot.dispatched, Bool.and_eq_true] at hd
        exact Option.isSome_iff_exists.mp hd.2
      rw [dispatch_cons_invoked cfg s ss w acts hrw hp]
      by_cases hover : s.elapsed > cfg.OONF_TIMER_SLICE
      · rw [List.filter_cons_of_pos (by simp [hd, hover])]
        simp only [hover, if_true, List.filterMap_cons, Event.slice_warning,
          List.singleton_append, List.map_cons, ih]
      · rw [List.filter_cons_of_neg (by simp [hd, hover])]
        simp only [hover, if_false, List.filterMap_cons, Event.slice_warning,
          List.nil_append, ih]

/-- C12: a dispatched socket callback (its event reports readiness and its entry
has a callback) is called, runs to completion, and is followed by exactly one
`OONF_WARN` for that dispatch if `end_time - start_time` (the `uint64_t`
difference, which is `e - s` for `s <= e`) exceeds `OONF_TIMER_SLICE`, and by
none otherwise; in both cases the pass goes on with the later events of the
batch from the state the callback left, so every later descriptor is dispatched
as it would be without the warning. Over the whole pass the slice warnings are
exactly those of the dispatched callbacks that exceeded the budget, one each. -/
theorem C12_slice_warning_per_dispatch (cfg : Config) (s : Slot) (ss : List Slot)
    (w : World) (acts : List Action)
    (hrw : (s.is_read || s.is_write) = true) (hp : s.process = some acts) :
    (dispatch cfg (s :: ss) w).1 =
      Event.process s.sock (list_is_node_added w._socket_head s.sock)
        :: ((if s.elapsed > cfg.OONF_TIMER_SLICE
              then [Event.warn_slice s.sock s.elapsed (OONF_WARN cfg (run_actions acts w))]
              else [])
            ++ (dispatch cfg ss (run_actions acts w)).1) ∧
    (dispatch cfg (s :: ss) w).2 = (dispatch cfg ss (run_actions acts w)).2 ∧
    invoked_entries (dispatch cfg (s :: ss) w).1
      = s.sock :: (ss.filter Slot.dispatched).map Slot.sock ∧
    (dispatch cfg (s :: ss) w).1.filterMap Event.slice_warning
      = ((s :: ss).filter
          (fun x => x.dispatched && decide (x.elapsed > cfg.OONF_TIMER_SLICE))).map
          (fun x => (x.sock, x.elapsed)) ∧
    (s.start_time ≤ s.end_time → s.end_time < 2 ^ 64 →
      s.elapsed = s.end_time - s.start_time) := by
  have hd : s.dispatched = true := by simp [Slot.dispatched, hrw, hp]
  refine ⟨?_, ?_, ?_, dispatch_slice_warnings cfg (s :: ss) w, ?_⟩
  · rw [dispatch_cons_invoked cfg s ss w acts hrw hp]
  · rw [dispatch_cons_invoked cfg s ss w acts hrw hp]
  · rw [dispatch_invoked, List.filter_cons_of_pos hd, List.map_cons]
  · intro hle hlt
    unfold Slot.elapsed
    have h1 : s.end_time + 2 ^ 64 - s.start_time = (s.end_time - s.start_time) + 2 ^ 64 := by
      omega
    rw [h1, Nat.add_mod_right, Nat.mod_eq_of_lt (by omega)]

/-- C12 on an example with slice budget 100: the callback of entry 1 runs from
time 5 to time 200 and gets one warning, the callback of entry 2 runs from 300
to 310 and gets none; both are invoked. -/
theorem C12_slice_warning_per_dispatch_witness :
    (dispatch config0
        ((⟨1, true, false, some [.registry (.remove 2)], 5, 200⟩ : Slot)
          :: [⟨2, false, true, some [], 300, 310⟩]) world12).1
      = [Event.process 1 true, Event.warn_slice 1 195 true, Event.process 2 false] :=
  ((C12_slice_warning_per_dispatch config0
      ⟨1, true, false, some [.registry (.remove 2)], 5, 200⟩
      [⟨2, false, true, some [], 300, 310⟩] world12 [.registry (.remove 2)] rfl rfl).1).trans
    (by decide)

/-! ## The shutdown grace period -/

theorem handle_scheduling_after_completes (cfg : Config) (pre tail : List Iter) :
    ∀ w : World, completes cfg pre w = true →
      (_handle_scheduling cfg (pre ++ tail) w).ret
          = (_handle_scheduling cfg tail (_handle_scheduling cfg pre w).world).ret ∧
      (_handle_scheduling cfg (pre ++ tail) w).trace
          = (_handle_scheduling cfg pre w).trace
            ++ (_handle_scheduling cfg tail (_handle_scheduling cfg pre w).world).trace ∧
      (_handle_scheduling cfg (pre ++ tail) w).world
          = (_handle_scheduling cfg tail (_handle_scheduling cfg pre w).world).world := by
  induction pre with
  | nil =>
    intro w _
    simp [_handle_scheduling]
  | cons it rest ih =>
    intro w hc
    simp only [completes] at hc
    split at hc
    · next tr w1 heq =>
      have h := ih w1 hc
      show (_handle_scheduling cfg (it :: (rest ++ tail)) w).ret = _ ∧
        (_handle_scheduling cfg (it :: (rest ++ tail)) w).trace = _ ∧
        (_handle_scheduling cfg (it :: (rest ++ tail)) w).world = _
      rw [handle_scheduling_cons, handle_scheduling_cons, heq]
      dsimp only
      rw [h.1, h.2.1, h.2.2, List.append_assoc]
      exact ⟨rfl, rfl, rfl⟩
    · exact absurd hc (by decide)

theorem wait_loop_ended_cause (w : World) (ne : Nat) (ts : List WaitTry) (tr : List Event)
    (h : wait_loop w ne ts = (tr, WaitOutcome.ended)) :
    ∃ wt ∈ ts, _shall_end_scheduler w wt.stop = true := by
  induction ts generalizing tr with
  | nil => simp [wait_loop] at h
  | cons t ts ih =>
    simp only [wait_loop] at h
    split at h
    · next hs => exact ⟨t, List.mem_cons_self _ _, hs⟩
    · split at h
      · simp only [Prod.mk.injEq] at h
        obtain ⟨wt, hwt, hs⟩ := ih _ (Prod.ext rfl h.2)
        exact ⟨wt, List.mem_cons_of_mem _ hwt, hs⟩
      · simp at h

theorem wait_loop_result_mem (w : World) (ne : Nat) (ts : List WaitTry) (tr : List Event)
    (wt : WaitTry) (h : wait_loop w ne ts = (tr, WaitOutcome.result wt)) :
    wt ∈ ts ∧ ¬ (wt.n = -1 ∧ wt.errno = EINTR) := by
  induction ts generalizing tr with
  | nil => simp [wait_loop] at h
  | cons t ts ih =>
    simp only [wait_loop] at h
    split at h
    · simp at h
    · split at h
      · simp only [Prod.mk.injEq] at h
        have := ih _ (Prod.ext rfl h.2)
        exact ⟨List.mem_cons_of_mem _ this.1, this.2⟩
      · next hnot =>
        simp only [Prod.mk.injEq, WaitOutcome.result.injEq] at h
        rw [← h.2]
        exact ⟨List.mem_cons_self _ _, hnot⟩

theorem shall_end_true (w : World) (stop : Bool) (h : _shall_end_scheduler w stop = true) :
    w._scheduler_time_limit = UINT64_MAX ∧ stop = true := by
  simpa [_shall_end_scheduler] using h

theorem after_wait_returned (cfg : Config) (clock2 : Option Nat) (wt : WaitTry) (w : World)
    (r : Int) (h : (after_wait cfg clock2 wt w).1 = Outcome.returned r) :
    (wt.n = 0 ∧ r = 0) ∨ (wt.n < 0 ∧ r = -1) ∨ (0 < wt.n ∧ clock2 = none ∧ r = -1) := by
  unfold after_wait at h
  split at h
  · next h0 =>
    simp only [Outcome.returned.injEq] at h
    exact Or.inl ⟨h0, h.symm⟩
  · next h0 =>
    split at h
    · next hneg =>
      simp only [Outcome.returned.injEq] at h
      exact Or.inr (Or.inl ⟨hneg, h.symm⟩)
    · next hneg =>
      split at h
      · simp only [Outcome.returned.injEq] at h
        exact Or.inr (Or.inr ⟨by omega, rfl, h.symm⟩)
      · exact Outcome.noConfusion h

theorem after_clock_returned (cfg : Config) (it : Iter) (w : World) (r : Int)
    (h : (after_clock cfg it w).1 = Outcome.returned r) :
    (w._scheduler_time_limit = UINT64_MAX ∧
        (it.stop = true ∨ ∃ wt ∈ it.waits, wt.stop = true) ∧ r = 0) ∨
    (∃ wt ∈ it.waits, wt.n = 0 ∧ r = 0) ∨
    (∃ wt ∈ it.waits, wt.n < 0 ∧ ¬ (wt.n = -1 ∧ wt.errno = EINTR) ∧ r = -1) ∨
    (∃ wt ∈ it.waits, 0 < wt.n ∧ it.clock2 = none ∧ r = -1) := by
  unfold after_clock at h
  dsimp only at h
  split at h
  · next hs =>
    simp only [Outcome.returned.injEq] at h
    have := shall_end_true _ _ hs
    rw [limit_run_actions] at this
    exact Or.inl ⟨this.1, Or.inl this.2, h.symm⟩
  · split at h
    · exact Outcome.noConfusion h
    · next tr heq =>
      simp only [Outcome.returned.injEq] at h
      obtain ⟨wt, hwt, hs⟩ := wait_loop_ended_cause _ _ _ _ heq
      have := shall_end_true _ _ hs
      rw [limit_set_next_deadline, limit_run_actions] at this
      exact Or.inl ⟨this.1, Or.inr ⟨wt, hwt, this.2⟩, h.symm⟩
    · next tr wt heq =>
      have hmem := wait_loop_result_mem _ _ _ _ _ heq
      rcases after_wait_returned cfg it.clock2 wt _ r h with h1 | h1 | h1
      · exact Or.inr (Or.inl ⟨wt, hmem.1, h1⟩)
      · exact Or.inr (Or.inr (Or.inl ⟨wt, hmem.1, h1.1, hmem.2, h1.2⟩))
      · exact Or.inr (Or.inr (Or.inr ⟨wt, hmem.1, h1⟩))

theorem iteration_stop_cause (cfg : Config) (it : Iter) (w : World) (r : Int)
    (h : (iteration cfg it w).1 = Outcome.returned r) :
    stop_cause w._scheduler_time_limit it r := by
  unfold iteration at h
  split at h
  · next hc =>
    simp only [Outcome.returned.injEq] at h
    exact Or.inl ⟨hc, h.symm⟩
  · next t hc =>
    dsimp only at h
    split at h
    · next hge =>
      simp only [Outcome.returned.injEq] at h
      exact Or.inr (Or.inl ⟨t, hc, hge, h.symm⟩)
    · next hlt =>
      have := after_clock_returned cfg it { w with now := t } r h
      exact Or.inr (Or.inr ⟨t, hc, Nat.lt_of_not_le hlt, this⟩)

theorem handle_scheduling_stop_cause (cfg : Config) (script : List Iter) :
    ∀ (w : World) (r : Int), (_handle_scheduling cfg script w).ret = some r →
      ∃ it ∈ script, stop_cause w._scheduler_time_limit it r := by
  induction script with
  | nil => intro w r h; simp [_handle_scheduling] at h
  | cons it rest ih =>
    intro w r h
    rw [handle_scheduling_cons] at h
    have hcause := iteration_stop_cause cfg it w
    have hlim := limit_iteration cfg it w
    split at h
    · next ret tr w1 heq =>
      simp only [Option.some.injEq] at h
      rw [heq] at hcause
      exact ⟨it, List.mem_cons_self _ _, hcause r (by rw [h])⟩
    · exact Option.noConfusion h
    · next tr w1 heq =>
      rw [heq] at hlim
      obtain ⟨it2, hmem, hc⟩ := ih w1 r h
      rw [hlim] at hc
      exact ⟨it2, List.mem_cons_of_mem _ hmem, hc⟩

/-- C11, as stated, fails: shutdown is requested at clock time 1000 (deadline
1500); an iteration that starts at 1100 dispatches a callback that ends at 1590,
and the next clock refresh returns 1600; the loop stops only then, at clock time
1600, later than 1000 + 500. -/
theorem C11_stop_later_than_grace_window :
    world_grace._scheduler_time_limit = 1000 + 500 ∧
    (_handle_scheduling config0
        [⟨some 1100, [], false, 2000, [wait_slow], some 1105⟩,
          ⟨some 1600, [], false, 2000, [wait_timeout], none⟩]
        world_grace).ret = some (-1) ∧
    (_handle_scheduling config0
        [⟨some 1100, [], false, 2000, [wait_slow], some 1105⟩,
          ⟨some 1600, [], false, 2000, [wait_timeout], none⟩]
        world_grace).world.now = 1600 ∧
    ¬ (1600 ≤ 1000 + 500) := by
  decide

/-- C11, amended: given a shutdown request at clock time `T` (the state is
`_initiate_shutdown w0` with `T = w0.now`, the deadline is `(T + 500) mod 2^64`),
`_handle_scheduling` stops with -1 at the start of the first iteration whose
clock refresh returns a time `t` at or after the deadline, before the timers, the
wait and the callbacks of that iteration and whatever work is pending; the clock
time of that stop is `t`, which is at or after the deadline and can be later.
Whenever the loop returns, it is for one of these reasons: a refreshed time at or
after the deadline, a true stop predicate (only when the deadline is the
sentinel), a wait that timed out, or a fault (failed clock refresh, failed
wait); so with the refreshed time below the deadline it stops only because its
work completed or a fault occurred. -/
theorem C11_forced_stop_at_first_late_iteration (cfg : Config) (w0 : World) :
    (∀ (pre : List Iter) (it : Iter) (rest : List Iter) (t : Nat),
      completes cfg pre (_initiate_shutdown w0) = true →
      it.clock1 = some t → (w0.now + 500) % 2 ^ 64 ≤ t →
      (_handle_scheduling cfg (pre ++ it :: rest) (_initiate_shutdown w0)).ret = some (-1) ∧
      (_handle_scheduling cfg (pre ++ it :: rest) (_initiate_shutdown w0)).trace
        = (_handle_scheduling cfg pre (_initiate_shutdown w0)).trace
          ++ [Event.clock_update true] ∧
      (_handle_scheduling cfg (pre ++ it :: rest) (_initiate_shutdown w0)).world.now = t) ∧
    (∀ (script : List Iter) (r : Int),
      (_handle_scheduling cfg script (_initiate_shutdown w0)).ret = some r →
      ∃ it ∈ script, stop_cause ((w0.now + 500) % 2 ^ 64) it r) := by
  constructor
  · intro pre it rest t hcomp hc hle
    have hpre := handle_scheduling_after_completes cfg pre (it :: rest) _ hcomp
    have hlim : (_handle_scheduling cfg pre (_initiate_shutdown w0)).world._scheduler_time_limit
        ≤ t := by
      rw [limit_handle_scheduling]
      exact hle
    have hit : iteration cfg it (_handle_scheduling cfg pre (_initiate_shutdown w0)).world
        = (Outcome.returned (-1), [Event.clock_update true],
            { (_handle_scheduling cfg pre (_initiate_shutdown w0)).world with now := t }) := by
      unfold iteration
      rw [hc]
      dsimp only
      rw [if_pos hlim]
    rw [hpre.1, hpre.2.1, hpre.2.2, handle_scheduling_cons, hit]
    exact ⟨rfl, rfl, rfl⟩
  · intro script r h
    exact handle_scheduling_stop_cause cfg script (_initiate_shutdown w0) r h

/-- C11, amended, on an example: request at time 1000, one iteration at 1100
that dispatches a slow callback, then a clock refresh to 1600: the loop stops
there with -1. -/
theorem C11_forced_stop_at_first_late_iteration_witness :
    (_handle_scheduling config0
        ([⟨some 1100, [], false, 2000, [wait_slow], some 1105⟩]
          ++ ⟨some 1600, [], false, 2000, [wait_timeout], none⟩ :: [])
        (_initiate_shutdown { world12 with now := 1000 })).ret = some (-1) :=
  ((C11_forced_stop_at_first_late_iteration config0 { world12 with now := 1000 }).1
    [⟨some 1100, [], false, 2000, [wait_slow], some 1105⟩]
    ⟨some 1600, [], false, 2000, [wait_timeout], none⟩ [] 1600 (by decide) rfl
    (by decide)).1

end OONF
